import Mathlib

/-!
Verification of the vector-config-reloader core
(`k8s/vector-config-reloader/app/vector_config_reloader_app.py` and
`k8s/vector-config-reloader/app/amd_exporter.py`).

The persisted vector configuration is a YAML document.  We model YAML
values shallowly with `Yval`, and Python dicts as association lists with
Python-dict semantics: assignment replaces the value in place when the key
is present and appends at the end otherwise; `pop` removes the key;
lookup returns the first binding.  Because `yaml.safe_dump` (in
`utils.py`) serialises mappings with sorted keys, equality of these
association lists is finer than byte equality of the persisted artifact,
so proving equality in the model implies byte-identical output, while
counterexamples below are always exhibited on list-valued fields
(`inputs`), whose order `safe_dump` preserves.
-/

/-- A YAML value, as stored in the vector config document. -/
inductive Yval where
  | s (v : String)
  | n (v : Nat)
  | b (v : Bool)
  | l (items : List Yval)
  | m (entries : List (String × Yval))

abbrev Ymap := List (String × Yval)

/-- Python dict lookup: first binding for the key. -/
def dget {α : Type} (mp : List (String × α)) (k : String) : Option α :=
  match mp with
  | [] => none
  | (k', v) :: rest => if k' = k then some v else dget rest k

/-- Python dict assignment `d[k] = v`: replace in place if present, else append. -/
def dset {α : Type} (mp : List (String × α)) (k : String) (v : α) : List (String × α) :=
  match mp with
  | [] => [(k, v)]
  | (k', v') :: rest => if k' = k then (k, v) :: rest else (k', v') :: dset rest k v

/-- Python dict `d.pop(k, None)`: drop the binding for `k`. -/
def dpop {α : Type} (mp : List (String × α)) (k : String) : List (String × α) :=
  mp.filter (fun e => e.1 ≠ k)

/-- Read a YAML list as a list of strings, failing on non-string items. -/
def strListAux : List Yval → Option (List String)
  | [] => some []
  | .s str :: rest => (strListAux rest).map (str :: ·)
  | _ => none

/-- Read a YAML list of strings (the shape of every `inputs` field). -/
def strList? : Yval → Option (List String)
  | .l items => strListAux items
  | _ => none

/-- Strings as a YAML list value. -/
def ofStrList (xs : List String) : Yval := .l (xs.map .s)

/-- Lexicographic code-point comparison of character lists, the order
Python's `sorted` uses on strings.  Written with `Nat.blt` so that it
evaluates by kernel reduction. -/
def charListLt : List Char → List Char → Bool
  | _, [] => false
  | [], _ :: _ => true
  | a :: as, b :: bs =>
    if Nat.blt a.toNat b.toNat then true
    else if Nat.blt b.toNat a.toNat then false
    else charListLt as bs

/-- Python string `<`: code-point lexicographic comparison. -/
def strLtB (a b : String) : Bool := charListLt a.data b.data

/-- Insert into a strictly sorted duplicate-free list of strings. -/
def sinsert (x : String) : List String → List String
  | [] => [x]
  | y :: ys => if strLtB x y then x :: y :: ys else if x = y then y :: ys else y :: sinsert x ys

/-- Python `sorted(set(xs))`: lexicographically sorted, duplicate-free. -/
def ssortDedup (xs : List String) : List String :=
  xs.foldr sinsert []

theorem dget_dset {α : Type} (mp : List (String × α)) (k j : String) (v : α) :
    dget (dset mp k v) j = if k = j then some v else dget mp j := by
  induction mp with
  | nil => simp [dset, dget]
  | cons e rest ih =>
    obtain ⟨k', v'⟩ := e
    simp only [dset]
    by_cases h1 : k' = k
    · subst h1
      by_cases h2 : k' = j <;> simp [dget, h2]
    · simp only [if_neg h1, dget]
      by_cases h2 : k' = j
      · subst h2
        have : ¬ k = k' := fun h => h1 h.symm
        simp [this]
      · simp [h2, ih]

theorem dset_dget_self {α : Type} (mp : List (String × α)) (k : String) (v : α) (h : dget mp k = some v) :
    dset mp k v = mp := by
  induction mp with
  | nil => simp [dget] at h
  | cons e rest ih =>
    obtain ⟨k', v'⟩ := e
    simp only [dget] at h
    simp only [dset]
    by_cases hk : k' = k
    · subst hk
      simp only [if_pos rfl] at h ⊢
      cases h
      rfl
    · simp only [if_neg hk] at h ⊢
      rw [ih h]

theorem dset_dset_self {α : Type} (mp : List (String × α)) (k : String) (v : α) :
    dset (dset mp k v) k v = dset mp k v := by
  apply dset_dget_self
  rw [dget_dset]
  simp

theorem dpop_absent {α : Type} (mp : List (String × α)) (k : String) (h : dget mp k = none) :
    dpop mp k = mp := by
  induction mp with
  | nil => rfl
  | cons e rest ih =>
    obtain ⟨k', v'⟩ := e
    simp only [dget] at h
    by_cases hk : k' = k
    · simp [hk] at h
    · simp only [if_neg hk] at h
      simp [dpop, List.filter, hk, ih h, dpop] at ih ⊢
      exact ih h

theorem strList?_ofStrList (xs : List String) : strList? (ofStrList xs) = some xs := by
  induction xs with
  | nil => rfl
  | cons x rest ih =>
    simp only [ofStrList, strList?, List.map, strListAux] at ih ⊢
    rw [ih]
    rfl

theorem blt_tt (m n : Nat) : Nat.blt m n = true ↔ m < n := by
  rw [Nat.blt_eq]

theorem blt_ff (m n : Nat) : Nat.blt m n = false ↔ ¬ m < n := by
  rw [← Nat.blt_eq]
  cases Nat.blt m n <;> simp

theorem char_eq_of_toNat_eq (a b : Char) (h : a.toNat = b.toNat) : a = b := by
  have hv : a.val = b.val := by
    apply UInt32.toNat.inj
    exact h
  exact Char.eq_of_val_eq hv

theorem charListLt_irrefl : ∀ l : List Char, charListLt l l = false
  | [] => rfl
  | c :: cs => by
    have hb : Nat.blt c.toNat c.toNat = false := (blt_ff _ _).mpr (lt_irrefl _)
    simp [charListLt, hb, charListLt_irrefl cs]

theorem charListLt_connex : ∀ a b : List Char,
    charListLt a b = false → charListLt b a = false → a = b
  | [], [], _, _ => rfl
  | [], _ :: _, h, _ => by simp [charListLt] at h
  | _ :: _, [], _, h => by simp [charListLt] at h
  | a :: as, b :: bs, h1, h2 => by
    simp only [charListLt] at h1 h2
    by_cases hab : Nat.blt a.toNat b.toNat = true
    · rw [hab] at h1
      simp at h1
    · rw [Bool.not_eq_true] at hab
      rw [hab] at h1 h2
      by_cases hba : Nat.blt b.toNat a.toNat = true
      · rw [hba] at h2
        simp at h2
      · rw [Bool.not_eq_true] at hba
        rw [hba] at h1 h2
        simp at h1 h2
        have hhd : a = b := char_eq_of_toNat_eq a b (by
          have u1 := (blt_ff _ _).mp hab
          have u2 := (blt_ff _ _).mp hba
          omega)
        subst hhd
        rw [charListLt_connex as bs h1 h2]

theorem charListLt_trans : ∀ a b c : List Char,
    charListLt a b = true → charListLt b c = true → charListLt a c = true
  | _, b, [], _, h2 => by cases b <;> simp [charListLt] at h2
  | [], _ :: _, _ :: _, _, _ => by simp [charListLt]
  | _ :: _, [], _ :: _, h1, _ => by simp [charListLt] at h1
  | a :: as, b :: bs, c0 :: cs, h1, h2 => by
    simp only [charListLt] at h1 h2 ⊢
    by_cases h_ab : Nat.blt a.toNat b.toNat = true
    · by_cases h_bc : Nat.blt b.toNat c0.toNat = true
      · have hac : a.toNat < c0.toNat :=
          lt_trans ((blt_tt _ _).mp h_ab) ((blt_tt _ _).mp h_bc)
        simp [(blt_tt _ _).mpr hac]
      · rw [Bool.not_eq_true] at h_bc
        rw [h_bc] at h2
        by_cases h_cb : Nat.blt c0.toNat b.toNat = true
        · rw [h_cb] at h2
          simp at h2
        · rw [Bool.not_eq_true] at h_cb
          rw [h_cb] at h2
          simp at h2
          have hbc0 : b.toNat = c0.toNat := by
            have u1 := (blt_ff _ _).mp h_bc
            have u2 := (blt_ff _ _).mp h_cb
            omega
          have hac : a.toNat < c0.toNat := hbc0 ▸ (blt_tt _ _).mp h_ab
          simp [(blt_tt _ _).mpr hac]
    · rw [Bool.not_eq_true] at h_ab
      rw [h_ab] at h1
      by_cases h_ba : Nat.blt b.toNat a.toNat = true
      · rw [h_ba] at h1
        simp at h1
      · rw [Bool.not_eq_true] at h_ba
        rw [h_ba] at h1
        simp at h1
        have hab0 : a.toNat = b.toNat := by
          have u1 := (blt_ff _ _).mp h_ab
          have u2 := (blt_ff _ _).mp h_ba
          omega
        by_cases h_bc : Nat.blt b.toNat c0.toNat = true
        · have hac : a.toNat < c0.toNat := hab0 ▸ (blt_tt _ _).mp h_bc
          simp [(blt_tt _ _).mpr hac]
        · rw [Bool.not_eq_true] at h_bc
          rw [h_bc] at h2
          by_cases h_cb : Nat.blt c0.toNat b.toNat = true
          · rw [h_cb] at h2
            simp at h2
          · rw [Bool.not_eq_true] at h_cb
            rw [h_cb] at h2
            simp at h2
            have hac : Nat.blt a.toNat c0.toNat = false := by
              rw [blt_ff]
              have u1 := (blt_ff _ _).mp h_ab
              have u2 := (blt_ff _ _).mp h_ba
              have u3 := (blt_ff _ _).mp h_bc
              have u4 := (blt_ff _ _).mp h_cb
              omega
            have hca : Nat.blt c0.toNat a.toNat = false := by
              rw [blt_ff]
              have u1 := (blt_ff _ _).mp h_ab
              have u2 := (blt_ff _ _).mp h_ba
              have u3 := (blt_ff _ _).mp h_bc
              have u4 := (blt_ff _ _).mp h_cb
              omega
            rw [hac, hca]
            simp
            exact charListLt_trans as bs cs h1 h2

theorem strLtB_irrefl (a : String) : strLtB a a = false := charListLt_irrefl a.data

theorem strLtB_trans {a b c : String} (h1 : strLtB a b = true) (h2 : strLtB b c = true) :
    strLtB a c = true := charListLt_trans _ _ _ h1 h2

theorem strLtB_connex {a b : String} (h1 : strLtB a b = false) (h2 : strLtB b a = false) :
    a = b := by
  have hd := charListLt_connex a.data b.data h1 h2
  cases a
  cases b
  cases hd
  rfl

theorem strLtB_asymm {a b : String} (h : strLtB a b = true) : strLtB b a = false := by
  cases hc : strLtB b a
  · rfl
  · have ht := strLtB_trans h hc
    rw [strLtB_irrefl] at ht
    exact absurd ht (by simp)

theorem strLtB_ne {a b : String} (h : strLtB a b = true) : a ≠ b := by
  intro he
  subst he
  rw [strLtB_irrefl] at h
  exact absurd h (by simp)

/-- The strict sortedness invariant of `sorted(set(...))` output. -/
def SortedStrict (xs : List String) : Prop := xs.Pairwise (fun a b => strLtB a b = true)

theorem sinsert_sorted_mem (x : String) (ys : List String)
    (hs : SortedStrict ys) (hm : x ∈ ys) : sinsert x ys = ys := by
  induction ys with
  | nil => simp at hm
  | cons y rest ih =>
    simp only [sinsert]
    rcases List.mem_cons.mp hm with h | h
    · subst h
      simp [strLtB_irrefl]
    · have hlt : strLtB y x = true := (List.pairwise_cons.mp hs).1 x h
      have h1 : strLtB x y = false := strLtB_asymm hlt
      have h2 : ¬ x = y := fun he => strLtB_ne hlt he.symm
      simp only [h1, if_neg h2]
      rw [ih (List.pairwise_cons.mp hs).2 h]
      simp

theorem sinsert_sorted_head (x y : String) (ys : List String) (h : strLtB x y = true) :
    sinsert x (y :: ys) = x :: y :: ys := by
  simp [sinsert, h]

theorem ssortDedup_sorted_id (xs : List String) (hs : SortedStrict xs) :
    ssortDedup xs = xs := by
  induction xs with
  | nil => rfl
  | cons x rest ih =>
    have hrest := (List.pairwise_cons.mp hs).2
    simp only [ssortDedup, List.foldr] at ih ⊢
    rw [ih hrest]
    cases rest with
    | nil => rfl
    | cons y ys =>
      exact sinsert_sorted_head x y ys ((List.pairwise_cons.mp hs).1 y (by simp))

theorem mem_sinsert (a x : String) (ys : List String) (ha : a ∈ sinsert x ys) :
    a = x ∨ a ∈ ys := by
  induction ys with
  | nil =>
    simp only [sinsert] at ha
    exact Or.inl (List.mem_singleton.mp ha)
  | cons z zs ihz =>
    simp only [sinsert] at ha
    by_cases hz1 : strLtB x z = true
    · simp only [hz1, if_pos] at ha
      rcases List.mem_cons.mp ha with h | h
      · exact Or.inl h
      · exact Or.inr h
    · rw [Bool.not_eq_true] at hz1
      by_cases hz2 : x = z
      · simp only [hz1, Bool.false_eq_true, if_false, if_pos hz2] at ha
        exact Or.inr ha
      · simp only [hz1, Bool.false_eq_true, if_false, if_neg hz2] at ha
        rcases List.mem_cons.mp ha with h | h
        · exact Or.inr (h ▸ List.mem_cons_self z zs)
        · rcases ihz h with h2 | h2
          · exact Or.inl h2
          · exact Or.inr (List.mem_cons_of_mem z h2)

theorem sinsert_pairwise (x : String) (ys : List String) (hs : SortedStrict ys) :
    SortedStrict (sinsert x ys) := by
  induction ys with
  | nil => simp [sinsert, SortedStrict]
  | cons y rest ih =>
    simp only [sinsert]
    by_cases h1 : strLtB x y = true
    · simp only [h1, if_pos]
      refine List.pairwise_cons.mpr ⟨?_, hs⟩
      intro a ha
      rcases List.mem_cons.mp ha with h | h
      · exact h ▸ h1
      · exact strLtB_trans h1 ((List.pairwise_cons.mp hs).1 a h)
    · rw [Bool.not_eq_true] at h1
      by_cases h2 : x = y
      · simp only [h1, Bool.false_eq_true, if_false, if_pos h2]
        exact hs
      · simp only [h1, Bool.false_eq_true, if_false, if_neg h2]
        have hyx : strLtB y x = true := by
          cases hc : strLtB y x
          · exact absurd (strLtB_connex h1 hc).symm (Ne.symm h2)
          · rfl
        refine List.pairwise_cons.mpr ⟨?_, ih (List.pairwise_cons.mp hs).2⟩
        intro a ha
        rcases mem_sinsert a x rest ha with h | h
        · exact h ▸ hyx
        · exact (List.pairwise_cons.mp hs).1 a h

theorem ssortDedup_pairwise (xs : List String) : SortedStrict (ssortDedup xs) := by
  induction xs with
  | nil => exact List.Pairwise.nil
  | cons x rest ih => exact sinsert_pairwise x (ssortDedup rest) ih

theorem ssortDedup_nodup (xs : List String) : (ssortDedup xs).Nodup :=
  (ssortDedup_pairwise xs).imp strLtB_ne

/-! ### Module constants (vector_config_reloader_app.py, amd_exporter.py) -/

def DCGM_EXPORTER_SOURCE_NAME : String := "dcgm_exporter_scrape"
def DCGM_EXPORTER_APP_LABEL : String := "nvidia-dcgm-exporter"
def DMESG_LOGS_SOURCE_NAME : String := "dmesg_logs"
def CRUSOE_INGEST_SINK_NAME : String := "crusoe_ingest"
def ENRICH_LOGS_TRANSFORM_NAME : String := "enrich_logs"
def JOURNALD_LOGS_SOURCE_NAME : String := "journald_logs"
def KUBE_STATE_METRICS_SOURCE_NAME : String := "kube_state_metrics_scrape"
def KUBE_STATE_METRICS_TRANSFORM_NAME : String := "enrich_kube_state_metrics"
def KUBE_STATE_METRICS_SINK_NAME : String := "kube_state_metrics_sink"
def KUBE_STATE_METRICS_APP_LABEL : String := "kube-state-metrics"
def NODE_METRICS_VECTOR_TRANSFORM_NAME : String := "enrich_node_metrics"
def CUSTOM_METRICS_VECTOR_TRANSFORM_NAME : String := "enrich_custom_metrics"
def CUSTOM_METRICS_CONFIG_MAP_NAME : String := "crusoe-custom-metrics-config"
def CUSTOM_METRICS_SCRAPE_ANNOTATION : String := "crusoe.ai/scrape"
def CUSTOM_METRICS_PORT_ANNOTATION : String := "crusoe.ai/port"
def CUSTOM_METRICS_PATH_ANNOTATION : String := "crusoe.ai/path"
def CUSTOM_METRICS_DEFAULT_SCRAPE_INTERVAL : Nat := 30
def SCRAPE_INTERVAL_MIN_THRESHOLD : Nat := 5
def AMD_EXPORTER_SOURCE_NAME : String := "amd_exporter_scrape"
def AMD_FILTER_TRANSFORM_NAME : String := "amd_allowed_filter"
def DEFAULT_AMD_APP_LABEL : String := "metrics-exporter"
def AMD_LABEL_KEY : String := "app.kubernetes.io/name"
def DEFAULT_AMD_NAMESPACE : String := "kube-amd-gpu"

/-- Constant `KUBE_STATE_METRICS_TRANSFORM_SOURCE` (module constant, a VRL literal). -/
def KUBE_STATE_METRICS_TRANSFORM_SOURCE : String := String.intercalate "\n"
  ["",
   ".tags.cluster_id = \"$\x7bCRUSOE_CLUSTER_ID\x7d\"",
   ".tags.project_id = \"$\x7bCRUSOE_PROJECT_ID\x7d\"",
   ".tags.crusoe_resource = \"cmk\"",
   ".tags.metrics_source = \"kube-state-metrics\"",
   ""]

/-- Constant `filter_vrl` from `AmdExporterManager.set_scrape` (a VRL literal). -/
def AMD_FILTER_VRL : String := String.intercalate "\n"
  ["",
   "metrics_allowlist = [",
   "    \"gpu_used_visible_vram\",",
   "    \"gpu_total_visible_vram\",",
   "    \"gpu_gfx_activity\",",
   "    \"gpu_power_usage\",",
   "    \"gpu_umc_activity\",",
   "    \"gpu_prof_tensor_active_percent\",",
   "    \"pcie_bandwidth\",",
   "    \"gpu_junction_temperature\",",
   "    \"gpu_xgmi_link_rx\",",
   "    \"gpu_xgmi_link_tx\",",
   "    \"pcie_replay_count\",",
   "    \"gpu_ecc_uncorrect_total\",",
   "    \"gpu_ecc_correct_total\",",
   "    \"gpu_prof_occupancy_percent\",",
   "    \"gpu_prof_sm_active\",",
   "]",
   "includes(metrics_allowlist, .name)",
   ""]

/-! ### Data model -/

/-- The vector configuration graph: the three top-level sections of the
persisted document.  The baseline template and every persisted config
always carry all three sections (spec section 6), so they are structure
fields rather than optional keys. -/
structure Cfg where
  sources : Ymap
  transforms : Ymap
  sinks : Ymap

/-- The instance state a `VectorConfigReloader` holds after `__init__`:
values read from the reloader config file, node labels, and the VRL
source texts assembled once at startup (`self.*` fields).  `podId` models
`self.pod_id or ""` (the `None` coalescing the source applies at every
use site); `vmId`/`instanceType`/`nodepoolId` model the interpolated
f-string text of the corresponding label (Python renders `None` as the
text `"None"`, which is still just a string here). -/
structure Reloader where
  dcgmMetricsEnabled : Bool
  dcgmExporterScrapeInterval : Nat
  ksmEnabled : Bool
  ksmScrapeInterval : Nat
  customMetricsEnabled : Bool
  logsEnabled : Bool
  defaultCustomMetricsPort : Int
  defaultCustomMetricsPath : String
  infraSinkEndpoint : String
  customSinkEndpoint : String
  logsIngestEndpoint : String
  sinkProxyEnabled : Bool
  sinkProxyCfg : Yval
  nodepoolId : String
  vmId : String
  instanceType : String
  podId : String
  hostname : String
  nodeMetricsTransformSource : String
  enrichLogsTransformSource : String
  amdScrapeInterval : Nat

/-- A custom-metrics endpoint descriptor, the dict built by
`get_custom_metrics_endpoint_cfg`. -/
structure Endpoint where
  url : String
  pod_ip : String
  pod_name : String
  deployment_name : String
deriving DecidableEq

/-- One entry of a policy's `addLabels` list.  The source only consumes
entries that are dicts (`isinstance(label_entry, dict)`); anything else
is skipped. -/
inductive AddLabelEntry where
  | dictEntry (kvs : List (String × String))
  | scalarEntry (raw : String)
deriving DecidableEq

/-- A per-deployment policy as returned by `get_deployment_metrics_config`:
the dict parsed from the rule ConfigMap, consumed via `.get` with the
defaults shown.  `{}` (missing deployment, fetch failure) is the structure
with every default. -/
structure DeployCfg where
  allowlist : List String := []
  droplist : List String := []
  dropLabels : List String := []
  addLabels : List AddLabelEntry := []
  scrape_interval_secs : Option Nat := none
deriving DecidableEq

/-- The pod metadata the reloader reads.  Missing `labels`/`annotations`
maps (`None` in the API object) are the empty list, exactly what the
source's `pod.metadata.labels or {}` produces. -/
structure Pod where
  name : String
  namespc : String
  pod_ip : String
  phase : String
  labels : List (String × String) := []
  annotations : List (String × String) := []
deriving DecidableEq

/-- Python `d.get(k)` on a string-valued metadata map. -/
def lookupStr (mp : List (String × String)) (k : String) : Option String :=
  match mp with
  | [] => none
  | (k', v) :: rest => if k' = k then some v else lookupStr rest k

/-! ### Classifier and descriptor builder -/

/-- Source `VectorConfigReloader.sanitize_name`: `re.sub(r'[^a-zA-Z0-9_]', '_', name)`,
substituting one character at a time. -/
def sanitizeChar (c : Char) : Char :=
  if c.isAlpha || c.isDigit || c = '_' then c else '_'

def sanitizeName (s : String) : String := ⟨s.data.map sanitizeChar⟩

def is_pod_active (p : Pod) : Bool := p.phase == "Running"

def is_pod_terminating (p : Pod) : Bool := p.phase == "Terminating"

/-- Predicate `is_custom_metrics_pod`: annotations map truthy, scrape annotation
present and equal to the literal `"true"`. -/
def is_custom_metrics_pod (p : Pod) : Bool :=
  !p.annotations.isEmpty &&
    (lookupStr p.annotations CUSTOM_METRICS_SCRAPE_ANNOTATION == some "true")

/-- Predicate `is_dcgm_exporter_pod`: labels map truthy and `app` label equal to
`nvidia-dcgm-exporter`. -/
def is_dcgm_exporter_pod (p : Pod) : Bool :=
  !p.labels.isEmpty && (lookupStr p.labels "app" == some DCGM_EXPORTER_APP_LABEL)

/-- Predicate `is_kube_state_metrics_pod`: `app.kubernetes.io/name` label equals
`kube-state-metrics` (no truthiness guard in the source). -/
def is_kube_state_metrics_pod (p : Pod) : Bool :=
  lookupStr p.labels "app.kubernetes.io/name" == some KUBE_STATE_METRICS_APP_LABEL

/-- Predicate `AmdExporterManager.is_exporter_pod`; `__init__` pins `app_label` and
`namespace` to the module defaults. -/
def amd_is_exporter_pod (p : Pod) : Bool :=
  !p.labels.isEmpty &&
    (p.namespc == DEFAULT_AMD_NAMESPACE) &&
    (lookupStr p.labels AMD_LABEL_KEY == some DEFAULT_AMD_APP_LABEL)

inductive ExporterKind where
  | customMetrics
  | dcgmExporter
  | kubeStateMetrics
  | amdExporter
  | noneKind
deriving DecidableEq

/-- The `if/elif` classification chain shared by `bootstrap_config` and
`handle_pod_event`: first match wins, no match is "not a relevant metrics
exporter". -/
def classify (p : Pod) : ExporterKind :=
  if is_custom_metrics_pod p then .customMetrics
  else if is_dcgm_exporter_pod p then .dcgmExporter
  else if is_kube_state_metrics_pod p then .kubeStateMetrics
  else if amd_is_exporter_pod p then .amdExporter
  else .noneKind

/-- Split a character list at every `'-'` (Python `str.split("-")`
semantics: the empty string yields one empty segment). -/
def splitCharsHyphen : List Char → List (List Char)
  | [] => [[]]
  | c :: rest =>
    let r := splitCharsHyphen rest
    if c = '-' then [] :: r
    else
      match r with
      | grp :: more => (c :: grp) :: more
      | [] => [[c]]

/-- Python `s.split("-")`. -/
def splitOnHyphen (s : String) : List String :=
  (splitCharsHyphen s.data).map (fun cs => ⟨cs⟩)

/-- Python `pod_name.rsplit("-", 2)`: split on `-` from the right, at most
two splits.  With `n` hyphen-separated segments this yields the first
`n - 2` segments rejoined, then the last two, when `n ≥ 3`, and all
segments otherwise. -/
def rsplitHyphen2 (s : String) : List String :=
  match (splitOnHyphen s).reverse with
  | bseg :: aseg :: r :: more => [String.intercalate "-" ((r :: more).reverse), aseg, bseg]
  | other => other.reverse

/-- Source `get_deployment_metrics_config`: an empty deployment name short-circuits
to `{}`.  The ConfigMap fetch and YAML parse are abstracted into `store`
(fetch failure or a missing key also return `{}`, which is one possible
`store`). -/
def get_deployment_metrics_config (store : String → DeployCfg) (deployment_name : String) :
    DeployCfg :=
  if deployment_name = "" then {} else store deployment_name

/-- The f-string `"http://" + pod_ip + ":" + port + path`. -/
def endpointUrl (ip : String) (port : Int) (path : String) : String :=
  s!"http://{ip}:{port}{path}"

/-- Source `get_custom_metrics_endpoint_cfg`.  `int(...)` on the port annotation
is Python's string-to-int conversion; an unparsable annotation raises
`ValueError`, modelled as `none`. -/
def get_custom_metrics_endpoint_cfg (r : Reloader) (p : Pod) : Option Endpoint :=
  let portOpt : Option Int :=
    match lookupStr p.annotations CUSTOM_METRICS_PORT_ANNOTATION with
    | some sp => sp.toInt?
    | none => some r.defaultCustomMetricsPort
  match portOpt with
  | none => none
  | some port =>
    let path := (lookupStr p.annotations CUSTOM_METRICS_PATH_ANNOTATION).getD
      r.defaultCustomMetricsPath
    let parts := rsplitHyphen2 p.name
    let dn := if parts.length = 3 then parts.headD "" else ""
    some { url := endpointUrl p.pod_ip port path,
           pod_ip := p.pod_ip,
           pod_name := p.name,
           deployment_name := dn }

/-! ### Expression compiler (`build_deployment_transform_source`) -/

/-- The allowlist guard statement emitted by the compiler. -/
def allowGuardLine : String := "if !includes(allowed_metrics, .name) \x7b abort \x7d"

/-- The droplist guard statement emitted by the compiler. -/
def dropGuardLine : String := "if includes(dropped_metrics, .name) \x7b abort \x7d"

/-- Python `", ".join` over quoted metric names. -/
def quoteJoin (ms : List String) : String :=
  String.intercalate ", " (ms.map (fun mtr => s!"\"{mtr}\""))

/-- The `vrl_lines` list built by `build_deployment_transform_source`, in
emission order: guard section (allowlist takes the `if` branch, droplist
only the `elif`), label deletions, label additions, then the fixed
routing/provenance tags. -/
def buildDeploymentTransformLines (r : Reloader) (dc : DeployCfg) (ep : Endpoint) :
    List String :=
  let am := quoteJoin dc.allowlist
  let dm := quoteJoin dc.droplist
  let guards : List String :=
    if dc.allowlist ≠ [] then [s!"allowed_metrics = [{am}]", allowGuardLine]
    else if dc.droplist ≠ [] then [s!"dropped_metrics = [{dm}]", dropGuardLine]
    else []
  let dels := dc.dropLabels.map (fun label => s!"del(.tags.{label})")
  let adds := dc.addLabels.flatMap (fun entry =>
    match entry with
    | .dictEntry kvs => kvs.map (fun kv =>
        let k := kv.1
        let v := kv.2
        s!".tags.{k} = \"{v}\"")
    | .scalarEntry _ => [])
  let np := r.nodepoolId
  let vm := r.vmId
  let it := r.instanceType
  let pid := r.podId
  let pip := ep.pod_ip
  let pnm := ep.pod_name
  guards ++ dels ++ adds ++
    [s!".tags.nodepool = \"{np}\"",
     ".tags.cluster_id = \"$\x7bCRUSOE_CLUSTER_ID\x7d\"",
     s!".tags.vm_id = \"{vm}\"",
     s!".tags.vm_instance_type = \"{it}\"",
     s!"if \"{pid}\" != \"\" \x7b .tags.pod_id = \"{pid}\" \x7d",
     ".tags.crusoe_resource = \"custom_metrics\"",
     ".tags.metrics_source = \"custom-metrics\"",
     s!".tags.pod_ip = \"{pip}\"",
     s!".tags.pod_name = \"{pnm}\""]

/-- Source `build_deployment_transform_source`: `"\n".join(vrl_lines)`. -/
def build_deployment_transform_source (r : Reloader) (dc : DeployCfg) (ep : Endpoint) :
    String :=
  String.intercalate "\n" (buildDeploymentTransformLines r dc ep)

/-! ### Graph editor operations

Python raising (`KeyError` on a missing transform, `TypeError` on a
non-list `inputs`) is modelled as `none`: the event handler catches the
exception and the config is not persisted. -/

/-- Python `int(interval * SCRAPE_TIMEOUT_PERCENTAGE)` with
`SCRAPE_TIMEOUT_PERCENTAGE = 0.7`.  For the nonnegative integer intervals
the reloader works with, the double-precision product `interval * 0.7`
truncates to the same integer as exact `⌊7·interval/10⌋`: the relative
error of the rounded constant `0.7` (about `6.3e-17`) is below half an
ulp, so the product never crosses an integer boundary. -/
def scrapeTimeoutSecs (interval : Nat) : Nat := 7 * interval / 10

/-- The `prometheus_scrape` source node shared by every scrape config. -/
def scrapeSourceNode (endpoint : String) (interval : Nat) : Yval :=
  .m [("type", .s "prometheus_scrape"),
      ("endpoints", .l [.s endpoint]),
      ("scrape_interval_secs", .n interval),
      ("scrape_timeout_secs", .n (scrapeTimeoutSecs interval))]

/-- Source `set_dcgm_exporter_scrape_config`. -/
def set_dcgm_exporter_scrape_config (r : Reloader) (ep : Option String) (cfg : Cfg) :
    Option Cfg :=
  match ep with
  | none => some cfg
  | some e =>
    if !r.dcgmMetricsEnabled then some cfg
    else
      let c1 : Cfg := { cfg with
        sources := dset cfg.sources DCGM_EXPORTER_SOURCE_NAME
          (scrapeSourceNode e r.dcgmExporterScrapeInterval) }
      match dget c1.transforms NODE_METRICS_VECTOR_TRANSFORM_NAME with
      | some (.m tm) =>
        match dget tm "inputs" with
        | some iv =>
          match strList? iv with
          | some ins =>
            if DCGM_EXPORTER_SOURCE_NAME ∈ ins then some c1
            else some { c1 with
              transforms := dset c1.transforms NODE_METRICS_VECTOR_TRANSFORM_NAME
                (.m (dset tm "inputs" (ofStrList (ins ++ [DCGM_EXPORTER_SOURCE_NAME])))) }
          | none => none
        | none => none
      | _ => none

/-- Source `remove_dcgm_exporter_scrape_config`: pop the source, then rewrite the
node-metrics transform's inputs as `sorted(set(inputs) - {source})`. -/
def remove_dcgm_exporter_scrape_config (cfg : Cfg) : Option Cfg :=
  let c1 : Cfg := { cfg with sources := dpop cfg.sources DCGM_EXPORTER_SOURCE_NAME }
  match dget c1.transforms NODE_METRICS_VECTOR_TRANSFORM_NAME with
  | some (.m tm) =>
    let insOpt : Option (List String) :=
      match dget tm "inputs" with
      | some iv => strList? iv
      | none => some []
    match insOpt with
    | some ins =>
      some { c1 with
        transforms := dset c1.transforms NODE_METRICS_VECTOR_TRANSFORM_NAME
          (.m (dset tm "inputs"
            (ofStrList (ssortDedup (ins.filter (fun x => x ≠ DCGM_EXPORTER_SOURCE_NAME)))))) }
    | none => none
  | _ => none

/-- Field `self.kube_state_metrics_sink_config`, assembled in `__init__`. -/
def kube_state_metrics_sink_config (r : Reloader) : Yval :=
  .m [("type", .s "prometheus_remote_write"),
      ("inputs", ofStrList [KUBE_STATE_METRICS_TRANSFORM_NAME]),
      ("endpoint", .s r.infraSinkEndpoint),
      ("tenant_id", .s "cri:cmk/$\x7bCRUSOE_CLUSTER_ID\x7d"),
      ("auth", .m [("strategy", .s "bearer"), ("token", .s "$\x7bCRUSOE_MONITORING_TOKEN\x7d")]),
      ("healthcheck", .m [("enabled", .b false)]),
      ("compression", .s "snappy"),
      ("request", .m [("concurrency", .s "adaptive")]),
      ("batch", .m [("max_bytes", .n 500000)]),
      ("tls", .m [("verify_certificate", .b true), ("verify_hostname", .b true)])]

/-- Source `set_kube_state_metrics_scrape_config`. -/
def set_kube_state_metrics_scrape_config (r : Reloader) (ep : Option String) (cfg : Cfg) :
    Cfg :=
  match ep with
  | none => cfg
  | some e =>
    if !r.ksmEnabled then cfg
    else
      { sources := dset cfg.sources KUBE_STATE_METRICS_SOURCE_NAME
          (scrapeSourceNode e r.ksmScrapeInterval),
        transforms := dset cfg.transforms KUBE_STATE_METRICS_TRANSFORM_NAME
          (.m [("type", .s "remap"),
               ("inputs", ofStrList [KUBE_STATE_METRICS_SOURCE_NAME]),
               ("source", .s KUBE_STATE_METRICS_TRANSFORM_SOURCE)]),
        sinks := dset cfg.sinks KUBE_STATE_METRICS_SINK_NAME
          (kube_state_metrics_sink_config r) }

/-- Source `remove_kube_state_metrics_scrape_config`: three tolerant pops. -/
def remove_kube_state_metrics_scrape_config (cfg : Cfg) : Cfg :=
  { sources := dpop cfg.sources KUBE_STATE_METRICS_SOURCE_NAME,
    transforms := dpop cfg.transforms KUBE_STATE_METRICS_TRANSFORM_NAME,
    sinks := dpop cfg.sinks KUBE_STATE_METRICS_SINK_NAME }

/-- The logs sink config assembled inside `set_logs_config`. -/
def logs_sink_config (r : Reloader) : Yval :=
  .m ([("type", .s "http"),
       ("inputs", ofStrList [ENRICH_LOGS_TRANSFORM_NAME]),
       ("uri", .s r.logsIngestEndpoint),
       ("framing", .m [("method", .s "newline_delimited")]),
       ("compression", .s "snappy"),
       ("healthcheck", .m [("enabled", .b false)]),
       ("request", .m [("headers", .m [("X-Crusoe-Vm-Id", .s "$\x7bVM_ID:-unknown\x7d")])]),
       ("auth", .m [("strategy", .s "bearer"), ("token", .s "$\x7bCRUSOE_MONITORING_TOKEN\x7d")]),
       ("encoding", .m [("codec", .s "json")]),
       ("batch", .m [("max_bytes", .n 100000)])]
    ++ (if r.sinkProxyEnabled then [("proxy", r.sinkProxyCfg)] else []))

/-- Source `set_logs_config`. -/
def set_logs_config (r : Reloader) (cfg : Cfg) : Cfg :=
  if !r.logsEnabled then cfg
  else
    { sources := dset
        (dset cfg.sources JOURNALD_LOGS_SOURCE_NAME
          (.m [("type", .s "journald"), ("journal_directory", .s "/var/log/journal")]))
        DMESG_LOGS_SOURCE_NAME
        (.m [("type", .s "file"), ("include", ofStrList ["/var/log/dmesg", "/var/log/kern.log"])]),
      transforms := dset cfg.transforms ENRICH_LOGS_TRANSFORM_NAME
        (.m [("type", .s "remap"),
             ("inputs", ofStrList [JOURNALD_LOGS_SOURCE_NAME, DMESG_LOGS_SOURCE_NAME]),
             ("source", .s r.enrichLogsTransformSource)]),
      sinks := dset cfg.sinks CRUSOE_INGEST_SINK_NAME (logs_sink_config r) }

/-- Field `self.custom_metrics_sink_config`, assembled in `__init__` (with the
proxy entry appended afterwards when enabled). -/
def custom_metrics_sink_config (r : Reloader) : Ymap :=
  [("type", .s "prometheus_remote_write"),
   ("inputs", ofStrList [CUSTOM_METRICS_VECTOR_TRANSFORM_NAME]),
   ("endpoint", .s r.customSinkEndpoint),
   ("tenant_id", .s "cri:custom_metrics/$\x7bCRUSOE_CLUSTER_ID\x7d"),
   ("auth", .m [("strategy", .s "bearer"), ("token", .s "$\x7bCRUSOE_MONITORING_TOKEN\x7d")]),
   ("healthcheck", .m [("enabled", .b false)]),
   ("compression", .s "snappy"),
   ("request", .m [("concurrency", .s "adaptive")]),
   ("batch", .m [("max_bytes", .n 500000)]),
   ("tls", .m [("verify_certificate", .b true), ("verify_hostname", .b true)])]
  ++ (if r.sinkProxyEnabled then [("proxy", r.sinkProxyCfg)] else [])

/-- Line `scrape_interval_secs = max(deployment_config.get("scrape_interval_secs",
CUSTOM_METRICS_DEFAULT_SCRAPE_INTERVAL), SCRAPE_INTERVAL_MIN_THRESHOLD)`
(line 420 of the loop body of `set_custom_metrics_scrape_config`). -/
def computeCustomScrapeInterval (dc : DeployCfg) : Nat :=
  max (dc.scrape_interval_secs.getD CUSTOM_METRICS_DEFAULT_SCRAPE_INTERVAL)
    SCRAPE_INTERVAL_MIN_THRESHOLD

/-- The guard of the clamping warning on the next line:
`if scrape_interval_secs < SCRAPE_INTERVAL_MIN_THRESHOLD: LOG.warning(...)`,
evaluated on the value `computeCustomScrapeInterval` already produced. -/
def clampWarningEmitted (dc : DeployCfg) : Bool :=
  computeCustomScrapeInterval dc < SCRAPE_INTERVAL_MIN_THRESHOLD

/-- The id `pod_name_sanitized + "_scrape"`. -/
def customSourceName (ep : Endpoint) : String := sanitizeName ep.pod_name ++ "_scrape"

/-- The id `pod_name_sanitized + "_transform"`. -/
def customTransformName (ep : Endpoint) : String := sanitizeName ep.pod_name ++ "_transform"

/-- The id `pod_name_sanitized + "_sink"`. -/
def customSinkName (ep : Endpoint) : String := sanitizeName ep.pod_name ++ "_sink"

/-- The per-pod scrape source node written for one custom-metrics
endpoint. -/
def customSourceNode (store : String → DeployCfg) (ep : Endpoint) : Yval :=
  scrapeSourceNode ep.url
    (computeCustomScrapeInterval (get_deployment_metrics_config store ep.deployment_name))

/-- The per-pod remap transform node written for one custom-metrics
endpoint. -/
def customTransformNode (r : Reloader) (store : String → DeployCfg) (ep : Endpoint) : Yval :=
  .m [("type", .s "remap"),
      ("inputs", ofStrList [customSourceName ep]),
      ("drop_on_abort", .b true),
      ("source", .s (build_deployment_transform_source r
        (get_deployment_metrics_config store ep.deployment_name) ep))]

/-- The per-pod sink node: `self.custom_metrics_sink_config.copy()` with
`inputs` replaced by the per-pod transform. -/
def customSinkNode (r : Reloader) (ep : Endpoint) : Yval :=
  .m (dset (custom_metrics_sink_config r) "inputs" (ofStrList [customTransformName ep]))

/-- The loop body of `set_custom_metrics_scrape_config` for one endpoint:
write the per-pod source, transform and sink, keyed by the sanitized pod
name with a role suffix. -/
def addCustomTriad (r : Reloader) (store : String → DeployCfg) (cfg : Cfg) (ep : Endpoint) :
    Cfg :=
  { sources := dset cfg.sources (customSourceName ep) (customSourceNode store ep),
    transforms := dset cfg.transforms (customTransformName ep) (customTransformNode r store ep),
    sinks := dset cfg.sinks (customSinkName ep) (customSinkNode r ep) }

/-- Source `set_custom_metrics_scrape_config`. -/
def set_custom_metrics_scrape_config (r : Reloader) (store : String → DeployCfg)
    (eps : List Endpoint) (cfg : Cfg) : Cfg :=
  if eps.isEmpty then cfg
  else if !r.customMetricsEnabled then cfg
  else eps.foldl (addCustomTriad r store) cfg

/-- Source `remove_custom_metrics_scrape_config`: three tolerant pops of the
per-pod triad. -/
def remove_custom_metrics_scrape_config (ep : Endpoint) (cfg : Cfg) : Cfg :=
  let san := sanitizeName ep.pod_name
  { sources := dpop cfg.sources (san ++ "_scrape"),
    transforms := dpop cfg.transforms (san ++ "_transform"),
    sinks := dpop cfg.sinks (san ++ "_sink") }

/-- Source `AmdExporterManager.set_scrape` (called with
`NODE_METRICS_VECTOR_TRANSFORM_NAME` and `SCRAPE_TIMEOUT_PERCENTAGE`). -/
def amd_set_scrape (r : Reloader) (endpoint : String) (transform_name : String) (cfg : Cfg) :
    Option Cfg :=
  if endpoint = "" then some cfg
  else
    let srcNode := scrapeSourceNode endpoint r.amdScrapeInterval
    let c1 : Cfg := { cfg with sources := dset cfg.sources AMD_EXPORTER_SOURCE_NAME srcNode }
    let filterNode : Yval :=
      .m [("type", .s "filter"),
          ("inputs", ofStrList [AMD_EXPORTER_SOURCE_NAME]),
          ("condition", .m [("type", .s "vrl"), ("source", .s AMD_FILTER_VRL)])]
    let c2 : Cfg := { c1 with transforms := dset c1.transforms AMD_FILTER_TRANSFORM_NAME filterNode }
    match dget c2.transforms transform_name with
    | some (.m tm) =>
      match dget tm "inputs" with
      | some iv =>
        match strList? iv with
        | some ins =>
          if AMD_FILTER_TRANSFORM_NAME ∈ ins then some c2
          else some { c2 with
            transforms := dset c2.transforms transform_name
              (.m (dset tm "inputs" (ofStrList (ins ++ [AMD_FILTER_TRANSFORM_NAME])))) }
        | none => none
      | none => none
    | _ => none

/-- Source `AmdExporterManager.remove_scrape`: pop the source; rewrite the target
transform's inputs as `sorted(set(inputs) - {filter})` only when the target
transform exists; pop the filter transform. -/
def amd_remove_scrape (transform_name : String) (cfg : Cfg) : Option Cfg :=
  let c1 : Cfg := { cfg with sources := dpop cfg.sources AMD_EXPORTER_SOURCE_NAME }
  let insOpt : Option (List String) :=
    match dget c1.transforms transform_name with
    | some (.m tm) =>
      (match dget tm "inputs" with
       | some iv => strList? iv
       | none => some [])
    | some _ => none
    | none => some []
  match insOpt with
  | none => none
  | some ins =>
    let sorted_inputs := ssortDedup (ins.filter (fun x => x ≠ AMD_FILTER_TRANSFORM_NAME))
    let c2 : Cfg :=
      match dget c1.transforms transform_name with
      | some (.m tm) =>
        let tnode : Yval := .m (dset tm "inputs" (ofStrList sorted_inputs))
        { c1 with transforms := dset c1.transforms transform_name tnode }
      | _ => c1
    some { c2 with transforms := dpop c2.transforms AMD_FILTER_TRANSFORM_NAME }

/-! ### ConfigMap event handler -/

/-- A ConfigMap watch event as consumed by
`handle_custom_metrics_config_map_event`: type, object name, and the
object's `data` (a string map, `None` possible). -/
structure CmEvent where
  etype : String
  name : String
  data : Option (List (String × String))
deriving DecidableEq

abbrev CmCache := List (String × Option (List (String × String)))

/-- Source `handle_custom_metrics_config_map_event`, reduced to its two effects:
the new `custom_metrics_config_map_cache` and whether
`refresh_custom_metrics_config` was invoked.  The cache store happens
unconditionally, before the event-type dispatch. -/
def handle_custom_metrics_config_map_event (cache : CmCache) (ev : CmEvent) :
    CmCache × Bool :=
  let cache' := dset cache ev.name ev.data
  (cache', ev.etype = "ADDED" || ev.etype = "MODIFIED")

/-! ### Reachable graph states

The reconciler mutates the persisted graph only through the editor
operations below (`bootstrap_config`, `handle_pod_event`,
`refresh_custom_metrics_config` all reduce to sequences of them), so a
reachable state is a fold of operations over the baseline template. -/

inductive Op where
  | sDcgm (ep : Option String)
  | rDcgm
  | sKsm (ep : Option String)
  | rKsm
  | sCustom (eps : List Endpoint)
  | rCustom (ep : Endpoint)
  | sLogs
  | sAmd (ep : String)
  | rAmd
deriving DecidableEq

/-- One editor operation applied to the graph.  The amd operations are
always invoked on `NODE_METRICS_VECTOR_TRANSFORM_NAME` at the call
sites. -/
def step (r : Reloader) (store : String → DeployCfg) (cfg : Cfg) : Op → Option Cfg
  | .sDcgm ep => set_dcgm_exporter_scrape_config r ep cfg
  | .rDcgm => remove_dcgm_exporter_scrape_config cfg
  | .sKsm ep => some (set_kube_state_metrics_scrape_config r ep cfg)
  | .rKsm => some (remove_kube_state_metrics_scrape_config cfg)
  | .sCustom eps => some (set_custom_metrics_scrape_config r store eps cfg)
  | .rCustom ep => some (remove_custom_metrics_scrape_config ep cfg)
  | .sLogs => some (set_logs_config r cfg)
  | .sAmd ep => amd_set_scrape r ep NODE_METRICS_VECTOR_TRANSFORM_NAME cfg
  | .rAmd => amd_remove_scrape NODE_METRICS_VECTOR_TRANSFORM_NAME cfg

/-- Apply a sequence of editor operations, stopping at the first raise. -/
def run (r : Reloader) (store : String → DeployCfg) (cfg : Cfg) : List Op → Option Cfg
  | [] => some cfg
  | op :: rest =>
    match step r store cfg op with
    | none => none
    | some c => run r store c rest

/-- Observer: the `inputs` list of a transform, when present and a string
list. -/
def cfgTransformInputs (cfg : Cfg) (tname : String) : Option (List String) :=
  match dget cfg.transforms tname with
  | some (.m tm) =>
    match dget tm "inputs" with
    | some iv => strList? iv
    | none => none
  | _ => none

/-- A node's `inputs` list, where it exists and is a string list, has no
duplicate entries. -/
def nodeInputsNodup (v : Yval) : Bool :=
  match v with
  | .m tm =>
    match dget tm "inputs" with
    | some iv =>
      match strList? iv with
      | some xs => decide xs.Nodup
      | none => true
    | none => true
  | _ => true

/-- Every transform's `inputs` list is duplicate-free. -/
def transformsInputsNodup (cfg : Cfg) : Bool :=
  cfg.transforms.all (fun e => nodeInputsNodup e.2)

/-! ### Concrete fixtures (from the repository's own test fixture:
the baseline template and reloader config used in
`test_vector_config_reloader_app.py`). -/

def baseCfg : Cfg :=
  { sources := [("host_metrics", .m [("type", .s "host_metrics")])],
    transforms := [("enrich_node_metrics",
      .m [("type", .s "remap"), ("inputs", ofStrList ["host_metrics"]), ("source", .s ".")])],
    sinks := [("cms_gateway_node_metrics",
      .m [("type", .s "prometheus_remote_write"),
          ("inputs", ofStrList ["enrich_node_metrics"]),
          ("endpoint", .s "")])] }

def testReloader : Reloader :=
  { dcgmMetricsEnabled := true,
    dcgmExporterScrapeInterval := 30,
    ksmEnabled := true,
    ksmScrapeInterval := 60,
    customMetricsEnabled := true,
    logsEnabled := true,
    defaultCustomMetricsPort := 9100,
    defaultCustomMetricsPath := "/metrics",
    infraSinkEndpoint := "https://cms-monitoring.example.com/ingest/ingest",
    customSinkEndpoint := "https://cms-monitoring.example.com/ingest/custom",
    logsIngestEndpoint := "https://cms-monitoring.example.com/ingest/logs/ingest",
    sinkProxyEnabled := false,
    sinkProxyCfg := .m [],
    nodepoolId := "np-1",
    vmId := "vm-1",
    instanceType := "a100.8x",
    podId := "",
    hostname := "test-node",
    nodeMetricsTransformSource := ".",
    enrichLogsTransformSource := ".",
    amdScrapeInterval := 60 }

def emptyStore : String → DeployCfg := fun _ => {}

example :
    (set_dcgm_exporter_scrape_config testReloader (some "http://10.0.0.5:9400/metrics") baseCfg).map
      (fun c => cfgTransformInputs c NODE_METRICS_VECTOR_TRANSFORM_NAME) =
    some (some ["host_metrics", "dcgm_exporter_scrape"]) := by decide

example :
    (amd_set_scrape testReloader "http://10.0.0.7:5000/metrics" NODE_METRICS_VECTOR_TRANSFORM_NAME
      baseCfg).map (fun c => cfgTransformInputs c NODE_METRICS_VECTOR_TRANSFORM_NAME) =
    some (some ["host_metrics", "amd_allowed_filter"]) := by decide

example : sanitizeName "pod.name/with:weird- chars" = "pod_name_with_weird__chars" := by decide

example : rsplitHyphen2 "svc-a-123" = ["svc", "a", "123"] := by decide

example : rsplitHyphen2 "svc-a-b-123" = ["svc-a", "b", "123"] := by decide

example : rsplitHyphen2 "svc" = ["svc"] := by decide

/-! ### Shared helper lemmas -/

theorem dset_dset_overwrite {α : Type} (mp : List (String × α)) (k : String) (v w : α) :
    dset (dset mp k v) k w = dset mp k w := by
  induction mp with
  | nil => simp [dset]
  | cons e rest ih =>
    obtain ⟨k', v'⟩ := e
    simp only [dset]
    by_cases hk : k' = k
    · simp [hk, dset]
    · simp [hk, dset, ih]

theorem lookupStr_nil (k : String) : lookupStr [] k = none := rfl

/-- A fixture endpoint descriptor for concrete instantiations. -/
def epFixture : Endpoint :=
  { url := "http://10.2.0.1:9100/metrics",
    pod_ip := "10.2.0.1",
    pod_name := "svc-x-1",
    deployment_name := "svc-x" }

theorem strListAux_inv (items : List Yval) (xs : List String)
    (h : strListAux items = some xs) : items = xs.map .s := by
  induction items generalizing xs with
  | nil =>
    simp only [strListAux, Option.some.injEq] at h
    rw [← h]
    rfl
  | cons v rest ih =>
    cases v with
    | s str =>
      simp only [strListAux] at h
      cases hr : strListAux rest with
      | none => rw [hr] at h; simp at h
      | some ys =>
        rw [hr] at h
        simp only [Option.map, Option.bind, Option.some.injEq] at h
        rw [← h, ih ys hr]
        rfl
    | n _ => simp [strListAux] at h
    | b _ => simp [strListAux] at h
    | l _ => simp [strListAux] at h
    | m _ => simp [strListAux] at h

theorem strList?_inv (v : Yval) (xs : List String) (h : strList? v = some xs) :
    v = ofStrList xs := by
  cases v with
  | l items =>
    simp only [strList?] at h
    simp [ofStrList, strListAux_inv items xs h]
  | s _ => simp [strList?] at h
  | n _ => simp [strList?] at h
  | b _ => simp [strList?] at h
  | m _ => simp [strList?] at h

theorem filter_ne_of_not_mem (ins : List String) (k : String) (hmem : k ∉ ins) :
    ins.filter (fun x => x ≠ k) = ins := by
  apply List.filter_eq_self.mpr
  intro a ha
  simp only [ne_eq, decide_not, Bool.not_eq_eq_eq_not, Bool.not_true, decide_eq_false_iff_not]
  exact fun he => hmem (he ▸ ha)

/-- Re-assigning a transform's `inputs` with the `sorted(set(...) - {k})`
of its current value is the identity when `k` is absent and the list is
already strictly sorted. -/
theorem dset_inputs_id (tm : Ymap) (ins : List String) (k : String)
    (h3 : dget tm "inputs" = some (ofStrList ins)) (hmem : k ∉ ins)
    (hsort : SortedStrict ins) :
    dset tm "inputs" (ofStrList (ssortDedup (ins.filter (fun x => x ≠ k)))) = tm := by
  rw [filter_ne_of_not_mem ins k hmem, ssortDedup_sorted_id ins hsort]
  exact dset_dget_self tm "inputs" _ h3

/-! ### C5 — policy precedence in the expression compiler -/

/-- C5: for every policy with a non-empty allowlist (in particular one
that also carries a droplist), the compiled enrichment-expression body
contains the allow-guard and is identical to the body compiled with the
droplist removed — the drop-guard is never emitted; the drop-guard is
emitted (only) when the allowlist is absent and the droplist present. -/
theorem claim_C5_policy_precedence (r : Reloader) (dc : DeployCfg) (ep : Endpoint)
    (hallow : dc.allowlist ≠ []) :
    allowGuardLine ∈ buildDeploymentTransformLines r dc ep ∧
    buildDeploymentTransformLines r dc ep =
      buildDeploymentTransformLines r { dc with droplist := [] } ep ∧
    (∀ dc' : DeployCfg, dc'.allowlist = [] → dc'.droplist ≠ [] →
      dropGuardLine ∈ buildDeploymentTransformLines r dc' ep) := by
  refine ⟨?_, ?_, ?_⟩
  · simp [buildDeploymentTransformLines, hallow]
  · simp [buildDeploymentTransformLines, hallow]
  · intro dc' h1 h2
    simp [buildDeploymentTransformLines, h1, h2]

/-- C5 witness: a policy with both an allowlist and a droplist. -/
theorem claim_C5_policy_precedence_witness :
    ({ allowlist := ["m1"], droplist := ["m2"] } : DeployCfg).allowlist ≠ [] ∧
    allowGuardLine ∈ buildDeploymentTransformLines testReloader
      { allowlist := ["m1"], droplist := ["m2"] } epFixture :=
  ⟨by decide,
   (claim_C5_policy_precedence testReloader { allowlist := ["m1"], droplist := ["m2"] }
     epFixture (by decide)).1⟩

/-! ### C6 — interval clamping, timeout, and the (dead) clamp warning -/

/-- C6: the declared interval is clamped up to the minimum threshold 5 and
the timeout is `⌊interval·0.7⌋` (so a clamped interval of 5 yields
timeout 3), but the clamping is never recorded: the warning guard
compares the already-clamped value, so `clampWarningEmitted` is `false`
for every policy — including one declaring interval 1, which is clamped
to 5 silently. -/
theorem claim_C6_clamp_without_warning :
    (∀ dc : DeployCfg,
      SCRAPE_INTERVAL_MIN_THRESHOLD ≤ computeCustomScrapeInterval dc ∧
      clampWarningEmitted dc = false) ∧
    computeCustomScrapeInterval { scrape_interval_secs := some 1 } = 5 ∧
    clampWarningEmitted { scrape_interval_secs := some 1 } = false ∧
    scrapeTimeoutSecs 5 = 3 ∧
    computeCustomScrapeInterval { scrape_interval_secs := none } =
      CUSTOM_METRICS_DEFAULT_SCRAPE_INTERVAL := by
  refine ⟨fun dc => ⟨?_, ?_⟩, by decide, by decide, by decide, by decide⟩
  · exact le_max_right _ _
  · have h : ¬ computeCustomScrapeInterval dc < SCRAPE_INTERVAL_MIN_THRESHOLD :=
      not_lt_of_ge (le_max_right _ _)
    simp [clampWarningEmitted, h]

/-! ### C7 — first-match classification -/

/-- C7: classification is a single function evaluating the rules in fixed
priority order, so a pod never gets two kinds; a pod whose scrape-enable
annotation is the literal `"true"` is custom-metrics regardless of any
exporter labels it also carries, and a pod matching no rule is classified
as no relevant exporter. -/
theorem claim_C7_first_match_classification (p : Pod) :
    (lookupStr p.annotations CUSTOM_METRICS_SCRAPE_ANNOTATION = some "true" →
      classify p = ExporterKind.customMetrics) ∧
    (is_custom_metrics_pod p = false → is_dcgm_exporter_pod p = false →
      is_kube_state_metrics_pod p = false → amd_is_exporter_pod p = false →
      classify p = ExporterKind.noneKind) := by
  constructor
  · intro h
    cases ha : p.annotations with
    | nil => rw [ha] at h; simp [lookupStr] at h
    | cons e rest =>
      have hc : is_custom_metrics_pod p = true := by
        unfold is_custom_metrics_pod
        rw [h, ha]
        simp
      simp [classify, hc]
  · intro h1 h2 h3 h4
    simp [classify, h1, h2, h3, h4]

/-- A pod carrying both the custom-metrics annotation and the dcgm
exporter label. -/
def podBothKinds : Pod :=
  { name := "dcgm-exporter-abc", namespc := "gpu", pod_ip := "10.0.0.5", phase := "Running",
    labels := [("app", "nvidia-dcgm-exporter")],
    annotations := [("crusoe.ai/scrape", "true")] }

/-- A pod matching no classification rule. -/
def podNoMatch : Pod :=
  { name := "plain-app", namespc := "default", pod_ip := "10.0.0.9", phase := "Running",
    labels := [("app", "other")], annotations := [("note", "x")] }

/-- C7 witness: the annotated pod also carrying the dcgm label is
classified custom-metrics; the unmatched pod is classified none. -/
theorem claim_C7_first_match_classification_witness :
    lookupStr podBothKinds.annotations CUSTOM_METRICS_SCRAPE_ANNOTATION = some "true" ∧
    is_dcgm_exporter_pod podBothKinds = true ∧
    classify podBothKinds = ExporterKind.customMetrics ∧
    classify podNoMatch = ExporterKind.noneKind :=
  ⟨by decide, by decide,
   (claim_C7_first_match_classification podBothKinds).1 (by decide),
   (claim_C7_first_match_classification podNoMatch).2 (by decide) (by decide) (by decide)
     (by decide)⟩

/-! ### C4 — DELETED rule-object events -/

/-- The in-memory cache as it stands before the event: the last-known-good
rule object data. -/
def cmCacheFixture : CmCache :=
  [(CUSTOM_METRICS_CONFIG_MAP_NAME, some [("custom-metrics-config.yaml", "old-rules")])]

/-- A DELETED watch event for the rule ConfigMap (a deleted object's final
`data` is delivered with the event; here it differs from the cache). -/
def cmDeleteEvent : CmEvent :=
  { etype := "DELETED", name := CUSTOM_METRICS_CONFIG_MAP_NAME, data := none }

/-- C4: on a DELETED rule-object event the handler does not trigger the
refresh (no rebuild/persist), exactly as claimed — but it does NOT keep
the in-memory cache unchanged: the cache entry is overwritten with the
deleted object's data before the event-type dispatch, contradicting the
handler's own "Keeping internal cache intact" log line. -/
theorem claim_C4_deleted_event_effects :
    handle_custom_metrics_config_map_event cmCacheFixture cmDeleteEvent =
      ([(CUSTOM_METRICS_CONFIG_MAP_NAME, none)], false) ∧
    ([(CUSTOM_METRICS_CONFIG_MAP_NAME, none)] : CmCache) ≠ cmCacheFixture ∧
    (handle_custom_metrics_config_map_event cmCacheFixture
      { etype := "ADDED", name := CUSTOM_METRICS_CONFIG_MAP_NAME, data := none }).2 = true ∧
    (handle_custom_metrics_config_map_event cmCacheFixture
      { etype := "MODIFIED", name := CUSTOM_METRICS_CONFIG_MAP_NAME, data := none }).2 = true := by
  refine ⟨by decide, by decide, by decide, by decide⟩

/-! ### C10 — sanitization -/

theorem sanitizeChar_valid (c : Char) :
    ((sanitizeChar c).isAlpha || (sanitizeChar c).isDigit || sanitizeChar c = '_') = true := by
  unfold sanitizeChar
  by_cases h : c.isAlpha || c.isDigit || c = '_'
  · simp only [if_pos h]
    simpa using h
  · simp only [if_neg h]
    decide

theorem sanitizeChar_fix (c : Char) : sanitizeChar (sanitizeChar c) = sanitizeChar c := by
  unfold sanitizeChar
  by_cases h : c.isAlpha || c.isDigit || c = '_'
  · simp [h]
  · simp only [if_neg h]
    decide

/-- C10: sanitization produces only `[a-zA-Z0-9_]` characters, is
idempotent, and `set_custom_metrics_scrape_config` with an empty
descriptor list returns the graph unchanged. -/
theorem claim_C10_sanitize_idempotent (s : String) (r : Reloader)
    (store : String → DeployCfg) (cfg : Cfg) :
    (sanitizeName s).data.all
      (fun c => c.isAlpha || c.isDigit || c = '_') = true ∧
    sanitizeName (sanitizeName s) = sanitizeName s ∧
    set_custom_metrics_scrape_config r store [] cfg = cfg := by
  refine ⟨?_, ?_, ?_⟩
  · show (s.data.map sanitizeChar).all _ = true
    rw [List.all_eq_true]
    intro c hc
    obtain ⟨c0, _, rfl⟩ := List.mem_map.mp hc
    simpa using sanitizeChar_valid c0
  · show (⟨(s.data.map sanitizeChar).map sanitizeChar⟩ : String) = ⟨s.data.map sanitizeChar⟩
    rw [List.map_map]
    congr 1
    exact List.map_congr_left (fun c _ => sanitizeChar_fix c)
  · simp [set_custom_metrics_scrape_config]

/-! ### C8 — deployment-name derivation -/

theorem rsplitHyphen2_of_long (s : String) (h : 3 ≤ (splitOnHyphen s).length) :
    (rsplitHyphen2 s).length = 3 ∧
    (rsplitHyphen2 s).headD "" =
      String.intercalate "-" ((splitOnHyphen s).dropLast.dropLast) := by
  rcases hlr : (splitOnHyphen s).reverse with _ | ⟨bseg, _ | ⟨aseg, _ | ⟨rseg, more⟩⟩⟩
  · exfalso
    have hlen := congrArg List.length hlr
    simp only [List.length_reverse, List.length_cons, List.length_nil] at hlen
    omega
  · exfalso
    have hlen := congrArg List.length hlr
    simp only [List.length_reverse, List.length_cons, List.length_nil] at hlen
    omega
  · exfalso
    have hlen := congrArg List.length hlr
    simp only [List.length_reverse, List.length_cons, List.length_nil] at hlen
    omega
  · have hl : splitOnHyphen s = ((rseg :: more).reverse ++ [aseg]) ++ [bseg] := by
      have := congrArg List.reverse hlr
      rw [List.reverse_reverse] at this
      rw [this]
      simp
    constructor
    · simp [rsplitHyphen2, hlr]
    · simp only [rsplitHyphen2, hlr, List.headD]
      rw [hl]
      simp

theorem rsplitHyphen2_of_short (s : String) (h : (splitOnHyphen s).length < 3) :
    rsplitHyphen2 s = splitOnHyphen s ∧ (rsplitHyphen2 s).length ≠ 3 := by
  have hlen : (splitOnHyphen s).reverse.length < 3 := by simpa using h
  rcases hlr : (splitOnHyphen s).reverse with _ | ⟨bseg, _ | ⟨aseg, rest⟩⟩
  · have : splitOnHyphen s = [] := by
      have := congrArg List.reverse hlr
      simpa using this
    refine ⟨?_, ?_⟩ <;> simp [rsplitHyphen2, hlr, this]
  · have : splitOnHyphen s = [bseg] := by
      have := congrArg List.reverse hlr
      simpa using this
    refine ⟨?_, ?_⟩ <;> simp [rsplitHyphen2, hlr, this]
  · rcases rest with _ | ⟨rseg, more⟩
    · have : splitOnHyphen s = [aseg, bseg] := by
        have := congrArg List.reverse hlr
        simpa using this
      refine ⟨?_, ?_⟩ <;> simp [rsplitHyphen2, hlr, this]
    · exfalso
      rw [hlr] at hlen
      simp at hlen
      omega

theorem endpoint_cfg_deployment_name (r : Reloader) (p : Pod) (ep : Endpoint)
    (h : get_custom_metrics_endpoint_cfg r p = some ep) :
    ep.deployment_name =
      (if (rsplitHyphen2 p.name).length = 3 then (rsplitHyphen2 p.name).headD "" else "") := by
  simp only [get_custom_metrics_endpoint_cfg] at h
  rcases hpo : (match lookupStr p.annotations CUSTOM_METRICS_PORT_ANNOTATION with
    | some sp => sp.toInt?
    | none => some r.defaultCustomMetricsPort) with _ | port
  · rw [hpo] at h
    simp at h
  · rw [hpo] at h
    simp only [Option.some.injEq] at h
    rw [← h]

/-- C8: the deployment name carried by the endpoint descriptor is the pod
name with its last two hyphen-delimited suffix tokens stripped when the
name has at least three hyphen-delimited segments, and empty otherwise;
policy lookup on the empty name returns the empty policy. -/
theorem claim_C8_deployment_name (r : Reloader) (store : String → DeployCfg) (p : Pod)
    (ep : Endpoint) (h : get_custom_metrics_endpoint_cfg r p = some ep) :
    (3 ≤ (splitOnHyphen p.name).length →
      ep.deployment_name =
        String.intercalate "-" ((splitOnHyphen p.name).dropLast.dropLast)) ∧
    ((splitOnHyphen p.name).length < 3 → ep.deployment_name = "") ∧
    get_deployment_metrics_config store "" = {} := by
  refine ⟨?_, ?_, rfl⟩
  · intro hlong
    obtain ⟨h3, hhead⟩ := rsplitHyphen2_of_long p.name hlong
    rw [endpoint_cfg_deployment_name r p ep h, if_pos h3, hhead]
  · intro hshort
    obtain ⟨_, hne⟩ := rsplitHyphen2_of_short p.name hshort
    rw [endpoint_cfg_deployment_name r p ep h, if_neg hne]

/-- A custom-metrics pod with no overrides, from the repository's tests. -/
def podCustomFixture : Pod :=
  { name := "svc-a-123", namespc := "ns", pod_ip := "10.1.1.1", phase := "Running",
    labels := [], annotations := [("crusoe.ai/scrape", "true")] }

/-- The endpoint descriptor the builder produces for `podCustomFixture`
with the test reloader config (default port 9100, path `/metrics`). -/
def epCustomFixture : Endpoint :=
  { url := "http://10.1.1.1:9100/metrics", pod_ip := "10.1.1.1",
    pod_name := "svc-a-123", deployment_name := "svc" }

/-- C8 witness: `svc-a-123` strips to deployment `svc`. -/
theorem claim_C8_deployment_name_witness :
    get_custom_metrics_endpoint_cfg testReloader podCustomFixture = some epCustomFixture ∧
    3 ≤ (splitOnHyphen "svc-a-123").length ∧
    epCustomFixture.deployment_name =
      String.intercalate "-" ((splitOnHyphen "svc-a-123").dropLast.dropLast) :=
  ⟨by decide, by decide,
   (claim_C8_deployment_name testReloader emptyStore podCustomFixture epCustomFixture
     (by decide)).1 (by decide)⟩

/-! ### C9 — where port, path and interval come from -/

/-- Observer: a source node's `scrape_interval_secs`. -/
def cfgSourceScrapeInterval (cfg : Cfg) (sname : String) : Option Nat :=
  match dget cfg.sources sname with
  | some (.m sm) =>
    match dget sm "scrape_interval_secs" with
    | some (.n i) => some i
    | _ => none
  | _ => none

/-- A rule store declaring `scrape_interval_secs: 7` for deployment `svc`. -/
def storeSvc7 : String → DeployCfg :=
  fun n => if n = "svc" then { scrape_interval_secs := some 7 } else {}

/-- C9 counterexample: `svc-a-123` carries no port/path/interval
annotations, yet its compiled scrape interval is 7 — the policy's
`scrape_interval_secs` for deployment `svc` — and not the cluster-level
default 30 the claim's annotation-fallback reading predicts. -/
theorem claim_C9_counterexample :
    get_custom_metrics_endpoint_cfg testReloader podCustomFixture = some epCustomFixture ∧
    lookupStr podCustomFixture.annotations CUSTOM_METRICS_PORT_ANNOTATION = none ∧
    lookupStr podCustomFixture.annotations CUSTOM_METRICS_PATH_ANNOTATION = none ∧
    cfgSourceScrapeInterval
      (set_custom_metrics_scrape_config testReloader storeSvc7 [epCustomFixture] baseCfg)
      "svc_a_123_scrape" = some 7 ∧
    (7 : Nat) ≠ CUSTOM_METRICS_DEFAULT_SCRAPE_INTERVAL := by
  refine ⟨by decide, by decide, by decide, by decide, by decide⟩

/-- C9 amended: the descriptor's port and path are read from the pod's
annotations when present (and parseable, for the port) and fall back to
the cluster-level defaults when absent; the scrape interval is not read
from annotations at all — the per-pod source node is written with
`computeCustomScrapeInterval` of the rule-store policy for the
descriptor's deployment name, and that deployment name depends only on
the pod's name. -/
theorem claim_C9_amended (r : Reloader) (p : Pod) (ep : Endpoint)
    (store : String → DeployCfg) (cfg : Cfg)
    (h : get_custom_metrics_endpoint_cfg r p = some ep) :
    (lookupStr p.annotations CUSTOM_METRICS_PORT_ANNOTATION = none →
     lookupStr p.annotations CUSTOM_METRICS_PATH_ANNOTATION = none →
      ep.url = endpointUrl p.pod_ip r.defaultCustomMetricsPort r.defaultCustomMetricsPath) ∧
    (∀ ps pv pth, lookupStr p.annotations CUSTOM_METRICS_PORT_ANNOTATION = some ps →
      ps.toInt? = some pv →
      lookupStr p.annotations CUSTOM_METRICS_PATH_ANNOTATION = some pth →
      ep.url = endpointUrl p.pod_ip pv pth) ∧
    dget (addCustomTriad r store cfg ep).sources (sanitizeName ep.pod_name ++ "_scrape") =
      some (scrapeSourceNode ep.url
        (computeCustomScrapeInterval (get_deployment_metrics_config store ep.deployment_name))) ∧
    (∀ p2 ep2, p2.name = p.name → get_custom_metrics_endpoint_cfg r p2 = some ep2 →
      ep2.deployment_name = ep.deployment_name) := by
  refine ⟨?_, ?_, ?_, ?_⟩
  · intro hport hpath
    simp only [get_custom_metrics_endpoint_cfg, hport, hpath] at h
    simp only [Option.getD_none, Option.some.injEq] at h
    rw [← h]
  · intro ps pv pth hport hparse hpath
    simp only [get_custom_metrics_endpoint_cfg, hport, hparse, hpath] at h
    simp only [Option.getD_some, Option.some.injEq] at h
    rw [← h]
  · simp only [addCustomTriad, customSourceName, customSourceNode]
    rw [dget_dset, if_pos rfl]
  · intro p2 ep2 hname h2
    rw [endpoint_cfg_deployment_name r p ep h, endpoint_cfg_deployment_name r p2 ep2 h2, hname]

/-- C9 amended witness: the fixture pod with no overrides gets default
port and path, and the interval written for it under `storeSvc7` is the
policy's. -/
theorem claim_C9_amended_witness :
    get_custom_metrics_endpoint_cfg testReloader podCustomFixture = some epCustomFixture ∧
    lookupStr podCustomFixture.annotations CUSTOM_METRICS_PORT_ANNOTATION = none ∧
    epCustomFixture.url =
      endpointUrl podCustomFixture.pod_ip testReloader.defaultCustomMetricsPort
        testReloader.defaultCustomMetricsPath ∧
    dget (addCustomTriad testReloader storeSvc7 baseCfg epCustomFixture).sources
        (sanitizeName epCustomFixture.pod_name ++ "_scrape") =
      some (scrapeSourceNode epCustomFixture.url
        (computeCustomScrapeInterval
          (get_deployment_metrics_config storeSvc7 epCustomFixture.deployment_name))) :=
  ⟨by decide, by decide,
   (claim_C9_amended testReloader podCustomFixture epCustomFixture storeSvc7 baseCfg
     (by decide)).1 (by decide) (by decide),
   (claim_C9_amended testReloader podCustomFixture epCustomFixture storeSvc7 baseCfg
     (by decide)).2.2.1⟩

/-! ### C2 — removal on an already-absent node -/

/-- A reachable graph: the baseline with only the amd pipeline added.
Its node-metrics transform inputs are `[host_metrics, amd_allowed_filter]`
(insertion order), and the dcgm source/edge are absent. -/
def cfgAmdFixture : Cfg :=
  { sources :=
      [("host_metrics", .m [("type", .s "host_metrics")]),
       ("amd_exporter_scrape", scrapeSourceNode "http://10.0.0.7:5000/metrics" 60)],
    transforms :=
      [("enrich_node_metrics",
         .m [("type", .s "remap"),
             ("inputs", ofStrList ["host_metrics", "amd_allowed_filter"]),
             ("source", .s ".")]),
       ("amd_allowed_filter",
         .m [("type", .s "filter"),
             ("inputs", ofStrList ["amd_exporter_scrape"]),
             ("condition", .m [("type", .s "vrl"), ("source", .s AMD_FILTER_VRL)])])],
    sinks := baseCfg.sinks }

/-- C2 counterexample: on `cfgAmdFixture` the dcgm node and edge are
absent, yet `remove_dcgm_exporter_scrape_config` rewrites the
node-metrics transform's inputs from `[host_metrics, amd_allowed_filter]`
to the canonically sorted `[amd_allowed_filter, host_metrics]` — the
persisted document changes, so the remove is not byte-for-byte a no-op. -/
theorem claim_C2_counterexample :
    run testReloader emptyStore baseCfg [Op.sAmd "http://10.0.0.7:5000/metrics"] =
      some cfgAmdFixture ∧
    dget cfgAmdFixture.sources DCGM_EXPORTER_SOURCE_NAME = none ∧
    cfgTransformInputs cfgAmdFixture NODE_METRICS_VECTOR_TRANSFORM_NAME =
      some ["host_metrics", "amd_allowed_filter"] ∧
    (remove_dcgm_exporter_scrape_config cfgAmdFixture).map
      (fun c => cfgTransformInputs c NODE_METRICS_VECTOR_TRANSFORM_NAME) =
      some (some ["amd_allowed_filter", "host_metrics"]) ∧
    remove_dcgm_exporter_scrape_config cfgAmdFixture ≠ some cfgAmdFixture := by
  have hmap : (remove_dcgm_exporter_scrape_config cfgAmdFixture).map
      (fun c => cfgTransformInputs c NODE_METRICS_VECTOR_TRANSFORM_NAME) =
      some (some ["amd_allowed_filter", "host_metrics"]) := of_decide_eq_true rfl
  refine ⟨by rfl, by rfl, by rfl, hmap, ?_⟩
  intro heq
  have h2 := congrArg
    (Option.map (fun c => cfgTransformInputs c NODE_METRICS_VECTOR_TRANSFORM_NAME)) heq
  rw [hmap] at h2
  exact absurd h2 (by decide)

/-- C2 amended: removal of an absent node is never an error, and for the
custom-metrics and kube-state-metrics kinds it is a pure no-op; for the
dcgm and amd kinds it additionally rewrites the node-metrics transform's
inputs as `sorted(set(inputs))`, so the graph is unchanged exactly when
that list is already strictly sorted (and duplicate-free), as the
counterexample shows it need not be. -/
theorem claim_C2_amended (cfg : Cfg) (ep : Endpoint) :
    (dget cfg.sources (sanitizeName ep.pod_name ++ "_scrape") = none →
     dget cfg.transforms (sanitizeName ep.pod_name ++ "_transform") = none →
     dget cfg.sinks (sanitizeName ep.pod_name ++ "_sink") = none →
     remove_custom_metrics_scrape_config ep cfg = cfg) ∧
    (dget cfg.sources KUBE_STATE_METRICS_SOURCE_NAME = none →
     dget cfg.transforms KUBE_STATE_METRICS_TRANSFORM_NAME = none →
     dget cfg.sinks KUBE_STATE_METRICS_SINK_NAME = none →
     remove_kube_state_metrics_scrape_config cfg = cfg) ∧
    (∀ tm ins, dget cfg.sources DCGM_EXPORTER_SOURCE_NAME = none →
     dget cfg.transforms NODE_METRICS_VECTOR_TRANSFORM_NAME = some (.m tm) →
     dget tm "inputs" = some (ofStrList ins) →
     DCGM_EXPORTER_SOURCE_NAME ∉ ins → SortedStrict ins →
     remove_dcgm_exporter_scrape_config cfg = some cfg) ∧
    (∀ tm ins, dget cfg.sources AMD_EXPORTER_SOURCE_NAME = none →
     dget cfg.transforms NODE_METRICS_VECTOR_TRANSFORM_NAME = some (.m tm) →
     dget tm "inputs" = some (ofStrList ins) →
     AMD_FILTER_TRANSFORM_NAME ∉ ins → SortedStrict ins →
     dget cfg.transforms AMD_FILTER_TRANSFORM_NAME = none →
     amd_remove_scrape NODE_METRICS_VECTOR_TRANSFORM_NAME cfg = some cfg) := by
  obtain ⟨cs, ct, ck⟩ := cfg
  refine ⟨?_, ?_, ?_, ?_⟩
  · intro h1 h2 h3
    simp only [remove_custom_metrics_scrape_config]
    rw [dpop_absent _ _ h1, dpop_absent _ _ h2, dpop_absent _ _ h3]
  · intro h1 h2 h3
    simp only [remove_kube_state_metrics_scrape_config]
    rw [dpop_absent _ _ h1, dpop_absent _ _ h2, dpop_absent _ _ h3]
  · intro tm ins h1 h2 h3 hmem hsort
    simp only [remove_dcgm_exporter_scrape_config]
    rw [show (Cfg.mk cs ct ck).sources = cs from rfl] at h1
    rw [show (Cfg.mk cs ct ck).transforms = ct from rfl] at h2
    simp only [dpop_absent _ _ h1, h2, h3, strList?_ofStrList]
    rw [dset_inputs_id tm ins _ h3 hmem hsort, dset_dget_self ct _ _ h2]
  · intro tm ins h1 h2 h3 hmem hsort hfilt
    simp only [amd_remove_scrape]
    rw [show (Cfg.mk cs ct ck).sources = cs from rfl] at h1
    rw [show (Cfg.mk cs ct ck).transforms = ct from rfl] at h2 hfilt
    simp only [dpop_absent _ _ h1, h2, h3, strList?_ofStrList]
    rw [dset_inputs_id tm ins _ h3 hmem hsort, dset_dget_self ct _ _ h2,
      dpop_absent _ _ hfilt]

/-! ### C3 — inputs lists across reachable states -/

theorem all_dget {α : Type} (p : String × α → Bool) (m : List (String × α)) (k : String)
    (v : α) (hm : m.all p = true) (h : dget m k = some v) : p (k, v) = true := by
  induction m with
  | nil => simp [dget] at h
  | cons e rest ih =>
    obtain ⟨k', v'⟩ := e
    simp only [dget] at h
    simp only [List.all_cons, Bool.and_eq_true] at hm
    by_cases hk : k' = k
    · rw [if_pos hk] at h
      cases h
      exact hk ▸ hm.1
    · rw [if_neg hk] at h
      exact ih hm.2 h

theorem all_dset {α : Type} (p : String × α → Bool) (m : List (String × α)) (k : String)
    (v : α) (hm : m.all p = true) (hv : p (k, v) = true) : (dset m k v).all p = true := by
  induction m with
  | nil => simp [dset, hv]
  | cons e rest ih =>
    obtain ⟨k', v'⟩ := e
    simp only [List.all_cons, Bool.and_eq_true] at hm
    simp only [dset]
    by_cases hk : k' = k
    · rw [if_pos hk]
      simp [hv, hm.2]
    · rw [if_neg hk]
      simp [hm.1, ih hm.2]

theorem all_dpop {α : Type} (p : String × α → Bool) (m : List (String × α)) (k : String)
    (hm : m.all p = true) : (dpop m k).all p = true := by
  rw [List.all_eq_true] at hm ⊢
  intro x hx
  exact hm x (List.mem_filter.mp hx).1

/-- The standard transform-node shape every `set_*` writes:
`{"type": ..., "inputs": [...], ...}`. -/
theorem nodeInputsNodup_std (ty : Yval) (rest : Ymap) (xs : List String) (hx : xs.Nodup) :
    nodeInputsNodup (.m (("type", ty) :: ("inputs", ofStrList xs) :: rest)) = true := by
  have h1 : dget (("type", ty) :: ("inputs", ofStrList xs) :: rest) "inputs" =
      some (ofStrList xs) := by
    simp [dget]
  simp only [nodeInputsNodup, h1]
  simp [strList?_ofStrList, hx]

theorem nodeInputsNodup_dset_inputs (tm : Ymap) (xs : List String) (hx : xs.Nodup) :
    nodeInputsNodup (.m (dset tm "inputs" (ofStrList xs))) = true := by
  simp only [nodeInputsNodup]
  rw [dget_dset, if_pos rfl]
  simp [strList?_ofStrList, hx]

/-- Extract duplicate-freeness of an existing transform's inputs from the
invariant. -/
theorem inv_ins_nodup (ct tm : Ymap) (tname : String) (iv : Yval) (ins : List String)
    (hI : ct.all (fun e => nodeInputsNodup e.2) = true)
    (hT : dget ct tname = some (.m tm)) (hIV : dget tm "inputs" = some iv)
    (hSL : strList? iv = some ins) : ins.Nodup := by
  have hp := all_dget _ ct tname (.m tm) hI hT
  simp only [nodeInputsNodup, hIV, hSL] at hp
  exact of_decide_eq_true hp

theorem nodup_append_singleton (xs : List String) (k : String) (hx : xs.Nodup)
    (hk : k ∉ xs) : (xs ++ [k]).Nodup :=
  List.Nodup.append hx (List.nodup_singleton k)
    (fun _a ha hb => hk ((List.mem_singleton.mp hb) ▸ ha))

theorem setDcgm_preserves (r : Reloader) (ep : Option String) (cfg c' : Cfg)
    (h : set_dcgm_exporter_scrape_config r ep cfg = some c')
    (hI : transformsInputsNodup cfg = true) : transformsInputsNodup c' = true := by
  obtain ⟨cs, ct, ck⟩ := cfg
  cases ep with
  | none =>
    obtain rfl := Option.some.inj h
    exact hI
  | some e =>
    simp only [set_dcgm_exporter_scrape_config] at h
    cases hen : r.dcgmMetricsEnabled with
    | false =>
      rw [hen] at h
      simp only [Bool.not_false, if_true] at h
      obtain rfl := Option.some.inj h
      exact hI
    | true =>
      rw [hen] at h
      simp only [Bool.not_true, Bool.false_eq_true, if_false] at h
      split at h
      · rename_i tm hT
        split at h
        · rename_i iv hIV
          split at h
          · rename_i ins hSL
            split at h
            · obtain rfl := Option.some.inj h
              exact hI
            · rename_i hmem
              obtain rfl := Option.some.inj h
              have hnd : ins.Nodup := inv_ins_nodup ct tm _ iv ins hI hT hIV hSL
              exact all_dset _ ct _ _ hI
                (nodeInputsNodup_dset_inputs tm _ (nodup_append_singleton ins _ hnd hmem))
          · exact absurd h (by simp)
        · exact absurd h (by simp)
      · exact absurd h (by simp)

theorem removeDcgm_preserves (cfg c' : Cfg)
    (h : remove_dcgm_exporter_scrape_config cfg = some c')
    (hI : transformsInputsNodup cfg = true) : transformsInputsNodup c' = true := by
  obtain ⟨cs, ct, ck⟩ := cfg
  simp only [remove_dcgm_exporter_scrape_config] at h
  split at h
  · rename_i tm hT
    split at h
    · rename_i ins hSL
      obtain rfl := Option.some.inj h
      exact all_dset _ ct _ _ hI (nodeInputsNodup_dset_inputs tm _ (ssortDedup_nodup _))
    · exact absurd h (by simp)
  · exact absurd h (by simp)

theorem setKsm_preserves (r : Reloader) (ep : Option String) (cfg : Cfg)
    (hI : transformsInputsNodup cfg = true) :
    transformsInputsNodup (set_kube_state_metrics_scrape_config r ep cfg) = true := by
  obtain ⟨cs, ct, ck⟩ := cfg
  cases ep with
  | none => exact hI
  | some e =>
    cases hen : r.ksmEnabled with
    | false => simp only [set_kube_state_metrics_scrape_config, hen]; exact hI
    | true =>
      simp only [set_kube_state_metrics_scrape_config, hen, Bool.not_true, Bool.false_eq_true,
        if_false]
      exact all_dset _ ct _ _ hI (nodeInputsNodup_std _ _ _ (List.nodup_singleton _))

theorem removeKsm_preserves (cfg : Cfg) (hI : transformsInputsNodup cfg = true) :
    transformsInputsNodup (remove_kube_state_metrics_scrape_config cfg) = true := by
  obtain ⟨cs, ct, ck⟩ := cfg
  exact all_dpop _ ct _ hI

theorem setLogs_preserves (r : Reloader) (cfg : Cfg) (hI : transformsInputsNodup cfg = true) :
    transformsInputsNodup (set_logs_config r cfg) = true := by
  obtain ⟨cs, ct, ck⟩ := cfg
  cases hen : r.logsEnabled with
  | false => simp only [set_logs_config, hen]; exact hI
  | true =>
    simp only [set_logs_config, hen, Bool.not_true, Bool.false_eq_true, if_false]
    exact all_dset _ ct _ _ hI (nodeInputsNodup_std _ _ _ (by decide))

theorem addCustomTriad_preserves (r : Reloader) (store : String → DeployCfg) (cfg : Cfg)
    (ep : Endpoint) (hI : transformsInputsNodup cfg = true) :
    transformsInputsNodup (addCustomTriad r store cfg ep) = true := by
  obtain ⟨cs, ct, ck⟩ := cfg
  exact all_dset _ ct _ _ hI (nodeInputsNodup_std _ _ _ (List.nodup_singleton _))

theorem setCustom_preserves (r : Reloader) (store : String → DeployCfg) (eps : List Endpoint)
    (cfg : Cfg) (hI : transformsInputsNodup cfg = true) :
    transformsInputsNodup (set_custom_metrics_scrape_config r store eps cfg) = true := by
  unfold set_custom_metrics_scrape_config
  by_cases hemp : eps.isEmpty
  · rw [if_pos hemp]
    exact hI
  · rw [if_neg hemp]
    by_cases hen : r.customMetricsEnabled
    · simp only [hen, Bool.not_true, Bool.false_eq_true, if_false]
      clear hemp
      induction eps generalizing cfg with
      | nil => exact hI
      | cons e rest ih =>
        exact ih (addCustomTriad r store cfg e) (addCustomTriad_preserves r store cfg e hI)
    · simp only [hen, Bool.not_false, if_true]
      exact hI

theorem removeCustom_preserves (ep : Endpoint) (cfg : Cfg)
    (hI : transformsInputsNodup cfg = true) :
    transformsInputsNodup (remove_custom_metrics_scrape_config ep cfg) = true := by
  obtain ⟨cs, ct, ck⟩ := cfg
  exact all_dpop _ ct _ hI

theorem amdSet_preserves (r : Reloader) (e tname : String) (cfg c' : Cfg)
    (h : amd_set_scrape r e tname cfg = some c')
    (hI : transformsInputsNodup cfg = true) : transformsInputsNodup c' = true := by
  obtain ⟨cs, ct, ck⟩ := cfg
  simp only [amd_set_scrape] at h
  by_cases hemp : e = ""
  · rw [if_pos hemp] at h
    obtain rfl := Option.some.inj h
    exact hI
  · rw [if_neg hemp] at h
    have hI2 : (dset ct AMD_FILTER_TRANSFORM_NAME
        (.m [("type", .s "filter"),
             ("inputs", ofStrList [AMD_EXPORTER_SOURCE_NAME]),
             ("condition", .m [("type", .s "vrl"), ("source", .s AMD_FILTER_VRL)])])).all
        (fun entry => nodeInputsNodup entry.2) = true :=
      all_dset _ ct _ _ hI (nodeInputsNodup_std _ _ _ (List.nodup_singleton _))
    split at h
    · rename_i tm hT
      split at h
      · rename_i iv hIV
        split at h
        · rename_i ins hSL
          split at h
          · obtain rfl := Option.some.inj h
            exact hI2
          · rename_i hmem
            obtain rfl := Option.some.inj h
            have hnd : ins.Nodup := inv_ins_nodup _ tm tname iv ins hI2 hT hIV hSL
            exact all_dset _ _ _ _ hI2
              (nodeInputsNodup_dset_inputs tm _ (nodup_append_singleton ins _ hnd hmem))
        · exact absurd h (by simp)
      · exact absurd h (by simp)
    · exact absurd h (by simp)

theorem amdRemove_preserves (tname : String) (cfg c' : Cfg)
    (h : amd_remove_scrape tname cfg = some c')
    (hI : transformsInputsNodup cfg = true) : transformsInputsNodup c' = true := by
  obtain ⟨cs, ct, ck⟩ := cfg
  simp only [amd_remove_scrape] at h
  split at h
  · exact absurd h (by simp)
  · rename_i ins hSL
    split at h
    · rename_i tm hT
      obtain rfl := Option.some.inj h
      exact all_dpop _ _ _ (all_dset _ ct _ _ hI
        (nodeInputsNodup_dset_inputs tm _ (ssortDedup_nodup _)))
    · obtain rfl := Option.some.inj h
      exact all_dpop _ ct _ hI

theorem step_preserves (r : Reloader) (store : String → DeployCfg) (cfg c' : Cfg) (op : Op)
    (h : step r store cfg op = some c') (hI : transformsInputsNodup cfg = true) :
    transformsInputsNodup c' = true := by
  cases op with
  | sDcgm ep => exact setDcgm_preserves r ep cfg c' h hI
  | rDcgm => exact removeDcgm_preserves cfg c' h hI
  | sKsm ep =>
    obtain rfl := Option.some.inj h
    exact setKsm_preserves r ep cfg hI
  | rKsm =>
    obtain rfl := Option.some.inj h
    exact removeKsm_preserves cfg hI
  | sCustom eps =>
    obtain rfl := Option.some.inj h
    exact setCustom_preserves r store eps cfg hI
  | rCustom ep =>
    obtain rfl := Option.some.inj h
    exact removeCustom_preserves ep cfg hI
  | sLogs =>
    obtain rfl := Option.some.inj h
    exact setLogs_preserves r cfg hI
  | sAmd ep => exact amdSet_preserves r ep _ cfg c' h hI
  | rAmd => exact amdRemove_preserves _ cfg c' h hI

/-- C3 amended: across every reachable state (any operation sequence from
any baseline whose transforms' inputs are duplicate-free), every
transform's inputs list stays duplicate-free. -/
theorem claim_C3_amended (r : Reloader) (store : String → DeployCfg) (ops : List Op)
    (b c : Cfg) (hb : transformsInputsNodup b = true) (hrun : run r store b ops = some c) :
    transformsInputsNodup c = true := by
  induction ops generalizing b with
  | nil =>
    simp only [run] at hrun
    obtain rfl := Option.some.inj hrun
    exact hb
  | cons op rest ih =>
    simp only [run] at hrun
    cases hstep : step r store b op with
    | none => rw [hstep] at hrun; simp at hrun
    | some b' =>
      rw [hstep] at hrun
      exact ih b' (step_preserves r store b b' op hstep hb) hrun

/-- C2 amended witness: on the baseline template every remove of an
absent node returns the graph unchanged. -/
theorem claim_C2_amended_witness :
    remove_custom_metrics_scrape_config epFixture baseCfg = baseCfg ∧
    remove_kube_state_metrics_scrape_config baseCfg = baseCfg ∧
    remove_dcgm_exporter_scrape_config baseCfg = some baseCfg ∧
    amd_remove_scrape NODE_METRICS_VECTOR_TRANSFORM_NAME baseCfg = some baseCfg :=
  ⟨(claim_C2_amended baseCfg epFixture).1 (by rfl) (by rfl) (by rfl),
   (claim_C2_amended baseCfg epFixture).2.1 (by rfl) (by rfl) (by rfl),
   (claim_C2_amended baseCfg epFixture).2.2.1
     [("type", .s "remap"), ("inputs", ofStrList ["host_metrics"]), ("source", .s ".")]
     ["host_metrics"] (by rfl) (by rfl) (by rfl) (by decide) (by simp [SortedStrict]),
   (claim_C2_amended baseCfg epFixture).2.2.2
     [("type", .s "remap"), ("inputs", ofStrList ["host_metrics"]), ("source", .s ".")]
     ["host_metrics"] (by rfl) (by rfl) (by rfl) (by decide) (by simp [SortedStrict]) (by rfl)⟩

/-- A reachable graph: the baseline after one dcgm set.  The appended
input makes the node-metrics transform's inputs `[host_metrics,
dcgm_exporter_scrape]`, which is not in lexicographic order. -/
def cfgDcgmFixture : Cfg :=
  { sources :=
      [("host_metrics", .m [("type", .s "host_metrics")]),
       ("dcgm_exporter_scrape", scrapeSourceNode "http://10.0.0.5:9400/metrics" 30)],
    transforms :=
      [("enrich_node_metrics",
         .m [("type", .s "remap"),
             ("inputs", ofStrList ["host_metrics", "dcgm_exporter_scrape"]),
             ("source", .s ".")])],
    sinks := baseCfg.sinks }

/-- C3 counterexample: a single dcgm set on the baseline is a reachable
state whose node-metrics transform inputs are `[host_metrics,
dcgm_exporter_scrape]` — duplicate-free, but not in lexicographic order,
since `dcgm_exporter_scrape < host_metrics`. -/
theorem claim_C3_counterexample :
    run testReloader emptyStore baseCfg [Op.sDcgm (some "http://10.0.0.5:9400/metrics")] =
      some cfgDcgmFixture ∧
    cfgTransformInputs cfgDcgmFixture NODE_METRICS_VECTOR_TRANSFORM_NAME =
      some ["host_metrics", "dcgm_exporter_scrape"] ∧
    strLtB "dcgm_exporter_scrape" "host_metrics" = true ∧
    ¬ SortedStrict ["host_metrics", "dcgm_exporter_scrape"] := by
  refine ⟨by rfl, by rfl, by decide, ?_⟩
  intro hs
  have hh := (List.pairwise_cons.mp hs).1 "dcgm_exporter_scrape" (by simp)
  exact absurd hh (by decide)

/-- C3 amended witness: the invariant holds on the baseline and on the
reachable state of the counterexample. -/
theorem claim_C3_amended_witness :
    transformsInputsNodup baseCfg = true ∧ transformsInputsNodup cfgDcgmFixture = true :=
  ⟨by decide,
   claim_C3_amended testReloader emptyStore [Op.sDcgm (some "http://10.0.0.5:9400/metrics")]
     baseCfg cfgDcgmFixture (by decide) (by rfl)⟩

/-! ### C1 — idempotence of every set operation -/

theorem append_suffix_ne (a b s : String) (h : a ≠ b) : a ++ s ≠ b ++ s := by
  intro he
  apply h
  have hd := congrArg String.data he
  rw [String.data_append, String.data_append] at hd
  have h2 := List.append_cancel_right hd
  cases a
  cases b
  cases h2
  rfl

theorem customSourceName_ne {a b : Endpoint}
    (h : sanitizeName a.pod_name ≠ sanitizeName b.pod_name) :
    customSourceName a ≠ customSourceName b := append_suffix_ne _ _ _ h

theorem customTransformName_ne {a b : Endpoint}
    (h : sanitizeName a.pod_name ≠ sanitizeName b.pod_name) :
    customTransformName a ≠ customTransformName b := append_suffix_ne _ _ _ h

theorem customSinkName_ne {a b : Endpoint}
    (h : sanitizeName a.pod_name ≠ sanitizeName b.pod_name) :
    customSinkName a ≠ customSinkName b := append_suffix_ne _ _ _ h

theorem foldl_sources_ne (r : Reloader) (store : String → DeployCfg) (es : List Endpoint)
    (k : String) (hne : ∀ e ∈ es, customSourceName e ≠ k) (c : Cfg) :
    dget (es.foldl (addCustomTriad r store) c).sources k = dget c.sources k := by
  induction es generalizing c with
  | nil => rfl
  | cons e rest ih =>
    rw [List.foldl_cons, ih (fun x hx => hne x (List.mem_cons_of_mem e hx)) _]
    show dget (dset c.sources (customSourceName e) _) k = _
    rw [dget_dset, if_neg (hne e (List.mem_cons_self e rest))]

theorem foldl_transforms_ne (r : Reloader) (store : String → DeployCfg) (es : List Endpoint)
    (k : String) (hne : ∀ e ∈ es, customTransformName e ≠ k) (c : Cfg) :
    dget (es.foldl (addCustomTriad r store) c).transforms k = dget c.transforms k := by
  induction es generalizing c with
  | nil => rfl
  | cons e rest ih =>
    rw [List.foldl_cons, ih (fun x hx => hne x (List.mem_cons_of_mem e hx)) _]
    show dget (dset c.transforms (customTransformName e) _) k = _
    rw [dget_dset, if_neg (hne e (List.mem_cons_self e rest))]

theorem foldl_sinks_ne (r : Reloader) (store : String → DeployCfg) (es : List Endpoint)
    (k : String) (hne : ∀ e ∈ es, customSinkName e ≠ k) (c : Cfg) :
    dget (es.foldl (addCustomTriad r store) c).sinks k = dget c.sinks k := by
  induction es generalizing c with
  | nil => rfl
  | cons e rest ih =>
    rw [List.foldl_cons, ih (fun x hx => hne x (List.mem_cons_of_mem e hx)) _]
    show dget (dset c.sinks (customSinkName e) _) k = _
    rw [dget_dset, if_neg (hne e (List.mem_cons_self e rest))]

/-- After one pass with pairwise-distinct sanitized pod names, every
endpoint's triad is present with exactly its values. -/
theorem foldl_triad_written (r : Reloader) (store : String → DeployCfg) (es : List Endpoint)
    (hdist : es.Pairwise (fun a b => sanitizeName a.pod_name ≠ sanitizeName b.pod_name))
    (c : Cfg) :
    ∀ e ∈ es,
      dget (es.foldl (addCustomTriad r store) c).sources (customSourceName e) =
        some (customSourceNode store e) ∧
      dget (es.foldl (addCustomTriad r store) c).transforms (customTransformName e) =
        some (customTransformNode r store e) ∧
      dget (es.foldl (addCustomTriad r store) c).sinks (customSinkName e) =
        some (customSinkNode r e) := by
  induction es generalizing c with
  | nil => intro e he; simp at he
  | cons e0 rest ih =>
    intro e he
    obtain ⟨hhd, htl⟩ := List.pairwise_cons.mp hdist
    rcases List.mem_cons.mp he with rfl | hmem
    · have hner : ∀ x ∈ rest, sanitizeName x.pod_name ≠ sanitizeName e.pod_name :=
        fun x hx => (hhd x hx).symm
      rw [List.foldl_cons]
      refine ⟨?_, ?_, ?_⟩
      · rw [foldl_sources_ne r store rest (customSourceName e)
          (fun x hx => customSourceName_ne (hner x hx))]
        show dget (dset c.sources (customSourceName e) (customSourceNode store e)) _ = _
        rw [dget_dset, if_pos rfl]
      · rw [foldl_transforms_ne r store rest (customTransformName e)
          (fun x hx => customTransformName_ne (hner x hx))]
        show dget (dset c.transforms (customTransformName e) (customTransformNode r store e)) _ = _
        rw [dget_dset, if_pos rfl]
      · rw [foldl_sinks_ne r store rest (customSinkName e)
          (fun x hx => customSinkName_ne (hner x hx))]
        show dget (dset c.sinks (customSinkName e) (customSinkNode r e)) _ = _
        rw [dget_dset, if_pos rfl]
    · rw [List.foldl_cons]
      exact ih htl _ e hmem

/-- Replaying the pass over a graph in which every triad is already
present with its exact values is the identity. -/
theorem foldl_triad_fixed (r : Reloader) (store : String → DeployCfg) (es : List Endpoint)
    (c : Cfg)
    (hfix : ∀ e ∈ es,
      dget c.sources (customSourceName e) = some (customSourceNode store e) ∧
      dget c.transforms (customTransformName e) = some (customTransformNode r store e) ∧
      dget c.sinks (customSinkName e) = some (customSinkNode r e)) :
    es.foldl (addCustomTriad r store) c = c := by
  induction es generalizing c with
  | nil => rfl
  | cons e rest ih =>
    have he := hfix e (List.mem_cons_self e rest)
    have hc : addCustomTriad r store c e = c := by
      obtain ⟨cs, ct, ck⟩ := c
      simp only [addCustomTriad]
      rw [dset_dget_self _ _ _ he.1, dset_dget_self _ _ _ he.2.1, dset_dget_self _ _ _ he.2.2]
    rw [List.foldl_cons, hc]
    exact ih c (fun x hx => hfix x (List.mem_cons_of_mem e hx))

/-- C1: for every exporter kind, applying the kind's set operation twice
with the same descriptor yields the same graph as applying it once (exact
equality, which is stronger than equality after canonical sort): a
successful dcgm/amd set is a fixed point of a repeat set, a kube-state
set is idempotent outright, and a custom-metrics set over descriptors
with pairwise-distinct sanitized pod names replays as the identity — so a
duplicate add never duplicates source/transform/sink nodes and never
grows any inputs list. -/
theorem claim_C1_set_idempotent (r : Reloader) (store : String → DeployCfg) (cfg : Cfg) :
    (∀ ep c', set_dcgm_exporter_scrape_config r ep cfg = some c' →
      set_dcgm_exporter_scrape_config r ep c' = some c') ∧
    (∀ ep, set_kube_state_metrics_scrape_config r ep
        (set_kube_state_metrics_scrape_config r ep cfg) =
      set_kube_state_metrics_scrape_config r ep cfg) ∧
    (∀ e c', amd_set_scrape r e NODE_METRICS_VECTOR_TRANSFORM_NAME cfg = some c' →
      amd_set_scrape r e NODE_METRICS_VECTOR_TRANSFORM_NAME c' = some c') ∧
    (∀ eps, eps.Pairwise (fun a b => sanitizeName a.pod_name ≠ sanitizeName b.pod_name) →
      set_custom_metrics_scrape_config r store eps
        (set_custom_metrics_scrape_config r store eps cfg) =
      set_custom_metrics_scrape_config r store eps cfg) := by
  obtain ⟨cs, ct, ck⟩ := cfg
  refine ⟨?_, ?_, ?_, ?_⟩
  · intro ep c' h
    cases ep with
    | none =>
      obtain rfl := Option.some.inj h
      rfl
    | some e =>
      simp only [set_dcgm_exporter_scrape_config] at h ⊢
      by_cases hen : r.dcgmMetricsEnabled = true
      · simp only [hen, Bool.not_true, Bool.false_eq_true, if_false] at h ⊢
        split at h
        · rename_i tm hT
          split at h
          · rename_i iv hIV
            split at h
            · rename_i ins hSL
              split at h
              · rename_i hmem
                obtain rfl := Option.some.inj h
                simp only [hT, hIV, hSL]
                rw [if_pos hmem, dset_dset_self]
              · rename_i hmem
                obtain rfl := Option.some.inj h
                have hT2 : dget (dset ct NODE_METRICS_VECTOR_TRANSFORM_NAME
                    (Yval.m (dset tm "inputs"
                      (ofStrList (ins ++ [DCGM_EXPORTER_SOURCE_NAME])))))
                    NODE_METRICS_VECTOR_TRANSFORM_NAME =
                    some (Yval.m (dset tm "inputs"
                      (ofStrList (ins ++ [DCGM_EXPORTER_SOURCE_NAME])))) := by
                  rw [dget_dset, if_pos rfl]
                have hIV2 : dget (dset tm "inputs"
                    (ofStrList (ins ++ [DCGM_EXPORTER_SOURCE_NAME]))) "inputs" =
                    some (ofStrList (ins ++ [DCGM_EXPORTER_SOURCE_NAME])) := by
                  rw [dget_dset, if_pos rfl]
                simp only [hT2, hIV2, strList?_ofStrList]
                rw [if_pos (by simp), dset_dset_self]
            · exact absurd h (by simp)
          · exact absurd h (by simp)
        · exact absurd h (by simp)
      · rw [Bool.not_eq_true] at hen
        simp only [hen, Bool.not_false, if_true] at h ⊢
  · intro ep
    cases ep with
    | none => rfl
    | some e =>
      simp only [set_kube_state_metrics_scrape_config]
      by_cases hen : r.ksmEnabled = true
      · simp only [hen, Bool.not_true, Bool.false_eq_true, if_false]
        rw [dset_dset_self, dset_dset_self, dset_dset_self]
      · rw [Bool.not_eq_true] at hen
        simp [hen]
  · intro e c' h
    simp only [amd_set_scrape] at h ⊢
    by_cases hemp : e = ""
    · rw [if_pos hemp] at h ⊢
    · rw [if_neg hemp] at h ⊢
      split at h
      · rename_i tm hT
        split at h
        · rename_i iv hIV
          split at h
          · rename_i ins hSL
            split at h
            · rename_i hmem
              obtain rfl := Option.some.inj h
              rw [dset_dset_self]
              simp only [hT, hIV, hSL]
              rw [if_pos hmem, dset_dset_self]
            · rename_i hmem
              obtain rfl := Option.some.inj h
              have hAF : dget (dset (dset ct AMD_FILTER_TRANSFORM_NAME
                  (Yval.m [("type", .s "filter"),
                           ("inputs", ofStrList [AMD_EXPORTER_SOURCE_NAME]),
                           ("condition", .m [("type", .s "vrl"),
                             ("source", .s AMD_FILTER_VRL)])]))
                  NODE_METRICS_VECTOR_TRANSFORM_NAME
                  (Yval.m (dset tm "inputs"
                    (ofStrList (ins ++ [AMD_FILTER_TRANSFORM_NAME])))))
                  AMD_FILTER_TRANSFORM_NAME =
                  some (Yval.m [("type", .s "filter"),
                           ("inputs", ofStrList [AMD_EXPORTER_SOURCE_NAME]),
                           ("condition", .m [("type", .s "vrl"),
                             ("source", .s AMD_FILTER_VRL)])]) := by
                rw [dget_dset, if_neg (by decide), dget_dset, if_pos rfl]
              rw [dset_dget_self _ _ _ hAF]
              have hT2 : dget (dset (dset ct AMD_FILTER_TRANSFORM_NAME
                  (Yval.m [("type", .s "filter"),
                           ("inputs", ofStrList [AMD_EXPORTER_SOURCE_NAME]),
                           ("condition", .m [("type", .s "vrl"),
                             ("source", .s AMD_FILTER_VRL)])]))
                  NODE_METRICS_VECTOR_TRANSFORM_NAME
                  (Yval.m (dset tm "inputs"
                    (ofStrList (ins ++ [AMD_FILTER_TRANSFORM_NAME])))))
                  NODE_METRICS_VECTOR_TRANSFORM_NAME =
                  some (Yval.m (dset tm "inputs"
                    (ofStrList (ins ++ [AMD_FILTER_TRANSFORM_NAME])))) := by
                rw [dget_dset, if_pos rfl]
              have hIV2 : dget (dset tm "inputs"
                  (ofStrList (ins ++ [AMD_FILTER_TRANSFORM_NAME]))) "inputs" =
                  some (ofStrList (ins ++ [AMD_FILTER_TRANSFORM_NAME])) := by
                rw [dget_dset, if_pos rfl]
              simp only [hT2, hIV2, strList?_ofStrList]
              rw [if_pos (by simp), dset_dset_self]
          · exact absurd h (by simp)
        · exact absurd h (by simp)
      · exact absurd h (by simp)
  · intro eps hdist
    by_cases hemp : eps.isEmpty
    · simp [set_custom_metrics_scrape_config, hemp]
    · cases hen : r.customMetricsEnabled with
      | false => simp [set_custom_metrics_scrape_config, hemp, hen]
      | true =>
        simp only [set_custom_metrics_scrape_config, hemp, hen, Bool.not_true,
          Bool.false_eq_true, if_false]
        exact foldl_triad_fixed r store eps _
          (foldl_triad_written r store eps hdist (Cfg.mk cs ct ck))

/-- C1 witness: a repeated dcgm set on the reachable post-set graph is a
no-op, and a custom-metrics set over two descriptors with distinct
sanitized pod names replayed twice equals one pass. -/
theorem claim_C1_set_idempotent_witness :
    set_dcgm_exporter_scrape_config testReloader (some "http://10.0.0.5:9400/metrics")
      cfgDcgmFixture = some cfgDcgmFixture ∧
    ([epCustomFixture, epFixture] : List Endpoint).Pairwise
      (fun a b => sanitizeName a.pod_name ≠ sanitizeName b.pod_name) ∧
    set_custom_metrics_scrape_config testReloader emptyStore [epCustomFixture, epFixture]
      (set_custom_metrics_scrape_config testReloader emptyStore [epCustomFixture, epFixture]
        baseCfg) =
    set_custom_metrics_scrape_config testReloader emptyStore [epCustomFixture, epFixture]
      baseCfg :=
  ⟨(claim_C1_set_idempotent testReloader emptyStore baseCfg).1
     (some "http://10.0.0.5:9400/metrics") cfgDcgmFixture (by rfl),
   by
     refine List.pairwise_cons.mpr ⟨?_, List.pairwise_singleton _ _⟩
     intro b hb
     rw [List.mem_singleton] at hb
     subst hb
     decide,
   (claim_C1_set_idempotent testReloader emptyStore baseCfg).2.2.2
     [epCustomFixture, epFixture]
     (by
       refine List.pairwise_cons.mpr ⟨?_, List.pairwise_singleton _ _⟩
       intro b hb
       rw [List.mem_singleton] at hb
       subst hb
       decide)⟩
